import Mathlib

/-!
Verification of the resilient batch-processing core of the repository:
`utils/tokenize.py`, `agent/nodes/calculate_competitive_score.py`,
`agent/nodes/normalize_data.py` and `agent/nodes/analyze_scrapped_data.py`.

Python JSON-like values are modelled by the inductive type `JValue`; Python
dicts are association lists (Python dicts preserve insertion order and have
unique keys, so first-occurrence lookup agrees with Python lookup).  Numbers
are modelled by `ℚ` (idealized exact arithmetic for Python's int/float).
External effects (the tiktoken token counter, `json.loads`, the LLM
completion call) are parameters of the embedded functions; Python exceptions
are modelled by `Except`/`Option` results.
-/

/-- Model of a Python JSON-like value (the values produced by `json.loads`
and handed around the pipeline).  `null` doubles as Python `None`. -/
inductive JValue where
  | null : JValue
  | bool : Bool → JValue
  | num : ℚ → JValue
  | str : String → JValue
  | arr : List JValue → JValue
  | obj : List (String × JValue) → JValue

/-- A Python dict: ordered association list of string keys. -/
abbrev PyDict := List (String × JValue)

/-- Python truthiness: `None`, `False`, `0`, `""`, `[]`, `{}` are falsy. -/
def pyFalsy : JValue → Bool
  | JValue.null => true
  | JValue.bool b => !b
  | JValue.num q => q == 0
  | JValue.str s => s.isEmpty
  | JValue.arr xs => xs.isEmpty
  | JValue.obj kvs => kvs.isEmpty

def pyTruthy (v : JValue) : Bool := !(pyFalsy v)

/-- First-occurrence lookup in a dict (Python dict keys are unique, so this
is exactly `d[k]` / `d.get(k)`). -/
def pyLookup (d : PyDict) (k : String) : Option JValue :=
  match d with
  | [] => none
  | (k', v) :: rest => if k' = k then some v else pyLookup rest k

/-- Python `d.get(k, default)`. -/
def pyGetD (d : PyDict) (k : String) (default : JValue) : JValue :=
  match pyLookup d k with
  | some v => v
  | none => default

/-- Python dict assignment `d[k] = v`: replaces the value in place if the key
exists, otherwise appends the new key at the end (insertion order). -/
def setKey (d : PyDict) (k : String) (v : JValue) : PyDict :=
  match d with
  | [] => [(k, v)]
  | (k', v') :: rest => if k' = k then (k', v) :: rest else (k', v') :: setKey rest k v

/-- Python `k in d` membership test on dict keys. -/
def hasKey (d : PyDict) (k : String) : Bool :=
  match d with
  | [] => false
  | (k', _) :: rest => k' = k || hasKey rest k

mutual
/-- Structural equality of JSON values (models Python `==` on values parsed
from JSON; Python additionally equates `True == 1` and int/float of equal
value, a corner only reachable through deduplication of heterogeneous
model output, which no claim depends on). -/
def JValue.beq : JValue → JValue → Bool
  | JValue.null, JValue.null => true
  | JValue.bool a, JValue.bool b => a == b
  | JValue.num a, JValue.num b => a == b
  | JValue.str a, JValue.str b => a == b
  | JValue.arr a, JValue.arr b => beqJList a b
  | JValue.obj a, JValue.obj b => beqJObj a b
  | _, _ => false

def beqJList : List JValue → List JValue → Bool
  | [], [] => true
  | x :: xs, y :: ys => JValue.beq x y && beqJList xs ys
  | _, _ => false

def beqJObj : List (String × JValue) → List (String × JValue) → Bool
  | [], [] => true
  | (k, v) :: xs, (k', v') :: ys => k == k' && JValue.beq v v' && beqJObj xs ys
  | _, _ => false
end

/-- Is the value a dict or a list (`isinstance(v, (dict, list))`)? -/
def isStructured : JValue → Bool
  | JValue.arr _ => true
  | JValue.obj _ => true
  | _ => false

/-! ## `utils/tokenize.py`: `split_json_array` and `split_json_object`

The source estimates token costs with tiktoken (`count_tokens`), an external
library; the estimator is therefore a parameter `cost`.  For an array element
the code charges `count_tokens(json.dumps(item)) + 1` (`+1` for a comma) on
top of `2` initial tokens for the brackets; `cost item` stands for
`count_tokens(json.dumps(item), model)`. -/

/-- Loop of `split_json_array` (`tokenize.py` lines 152-169), transcribed with
explicit state: `chunks` = flushed chunks, `cur` = `current_chunk`,
`curTok` = `current_tokens`. -/
def splitJsonArrayGo (cost : JValue → ℕ) (maxTokens : ℕ) :
    List JValue → List (List JValue) → List JValue → ℕ → List (List JValue)
  | [], chunks, cur, _ => if cur.isEmpty then chunks else chunks ++ [cur]
  | item :: rest, chunks, cur, curTok =>
    let itemTok := cost item + 1
    if curTok + itemTok > maxTokens && !cur.isEmpty then
      splitJsonArrayGo cost maxTokens rest (chunks ++ [cur]) [item] (2 + itemTok)
    else
      splitJsonArrayGo cost maxTokens rest chunks (cur ++ [item]) (curTok + itemTok)

/-- `split_json_array(arr, max_tokens, model)`.  The source returns each chunk
serialized with `json.dumps`; the claims quantify over the parsed content of
those strings, so the embedding returns the chunks themselves (serialization
and re-parsing by the Python `json` stdlib is the identity on each chunk). -/
def split_json_array (cost : JValue → ℕ) (maxTokens : ℕ) (arr : List JValue) :
    List (List JValue) :=
  splitJsonArrayGo cost maxTokens arr [] [] 2

/-- The code's own token estimate of a chunk: 2 bracket tokens plus
`cost item + 1` per item — the exact value of `current_tokens` for the chunk. -/
def chunkTokens (cost : JValue → ℕ) (c : List JValue) : ℕ :=
  2 + (c.map (fun item => cost item + 1)).sum

/-- Loop of `split_json_object` (`tokenize.py` lines 176-193).  Here the code
charges `count_tokens(json.dumps({key: value})) - 2` per pair (`cost kv` is
the un-adjusted pair estimate), a signed quantity, so tokens are `ℤ`. -/
def splitJsonObjectGo (cost : String × JValue → ℕ) (maxTokens : ℤ) :
    List (String × JValue) → List (List (String × JValue)) →
    List (String × JValue) → ℤ → List (List (String × JValue))
  | [], chunks, cur, _ => if cur.isEmpty then chunks else chunks ++ [cur]
  | kv :: rest, chunks, cur, curTok =>
    let itemTok : ℤ := (cost kv : ℤ) - 2
    if curTok + itemTok > maxTokens && !cur.isEmpty then
      splitJsonObjectGo cost maxTokens rest (chunks ++ [cur]) [kv] (2 + itemTok)
    else
      splitJsonObjectGo cost maxTokens rest chunks (cur ++ [kv]) (curTok + itemTok)

/-- `split_json_object(obj, max_tokens, model)`; chunks are returned as
sub-dicts (the source serializes each with `json.dumps`). -/
def split_json_object (cost : String × JValue → ℕ) (maxTokens : ℤ)
    (obj : List (String × JValue)) : List (List (String × JValue)) :=
  splitJsonObjectGo cost maxTokens obj [] [] 2

/-- A constant token estimator used to exhibit concrete chunking behaviour:
every element's serialized form is estimated at 10 tokens. -/
def cost10 : JValue → ℕ := fun _ => 10


/-! ## Python primitive semantics: conversions and rendering -/

/-- Truncation toward zero: the behaviour of Python `int()` on a float
(`int(2.7) == 2`, `int(-2.7) == -2`); `ℤ` division is T-division. -/
def pyTrunc (q : ℚ) : ℤ := Int.tdiv q.num (q.den : ℤ)

/-- Python whitespace stripped by `str.strip()` (ASCII subset; the unicode
whitespace Python also strips never occurs in the pipeline's data). -/
def isPyWs (c : Char) : Bool :=
  c = ' ' || c = '\t' || c = '\n' || c = '\r' || c = Char.ofNat 11 || c = Char.ofNat 12

def pyLStrip (cs : List Char) : List Char := cs.dropWhile isPyWs

def pyRStrip (cs : List Char) : List Char := (cs.reverse.dropWhile isPyWs).reverse

def pyStripCs (cs : List Char) : List Char := pyRStrip (pyLStrip cs)

def allDigits (cs : List Char) : Bool := cs.all Char.isDigit

def digitsToNatAux : List Char → ℕ → ℕ
  | [], acc => acc
  | c :: rest, acc => digitsToNatAux rest (acc * 10 + (c.toNat - 48))

/-- Python `int(s)` on a string: optional surrounding whitespace, optional
sign, decimal digits; anything else raises `ValueError` (modelled as `none`).
(Underscore separators and non-ASCII digits, which Python also accepts,
never occur in the pipeline's data.) -/
def pyIntOfString (s : String) : Option ℤ :=
  let cs := pyStripCs s.data
  match cs with
  | '-' :: rest => if !rest.isEmpty && allDigits rest then some (-(digitsToNatAux rest 0 : ℤ)) else none
  | '+' :: rest => if !rest.isEmpty && allDigits rest then some ((digitsToNatAux rest 0 : ℤ)) else none
  | _ => if !cs.isEmpty && allDigits cs then some ((digitsToNatAux cs 0 : ℤ)) else none

def parseUnsignedFloat (cs : List Char) : Option ℚ :=
  let intPart := cs.takeWhile Char.isDigit
  let rest := cs.dropWhile Char.isDigit
  match rest with
  | [] => if intPart.isEmpty then none else some ((digitsToNatAux intPart 0 : ℚ))
  | '.' :: frac =>
    if allDigits frac && (!intPart.isEmpty || !frac.isEmpty) then
      some ((digitsToNatAux intPart 0 : ℚ) + (digitsToNatAux frac 0 : ℚ) / ((10 : ℚ) ^ frac.length))
    else none
  | _ => none

/-- Python `float(s)` on a string: optional whitespace and sign, plain decimal
notation (the exponent/`inf`/`nan` forms Python also accepts never occur in
the pipeline's data); failure models `ValueError`. -/
def pyFloatOfString (s : String) : Option ℚ :=
  let cs := pyStripCs s.data
  match cs with
  | '-' :: rest => (parseUnsignedFloat rest).map Neg.neg
  | '+' :: rest => parseUnsignedFloat rest
  | _ => parseUnsignedFloat cs

/-- Python `int(v)`: ints/floats truncate, bools are 0/1, strings are parsed,
everything else raises `TypeError` (modelled as `Except.error`). -/
def pyIntConv : JValue → Except String ℤ
  | JValue.bool b => Except.ok (if b then 1 else 0)
  | JValue.num q => Except.ok (pyTrunc q)
  | JValue.str s =>
    match pyIntOfString s with
    | some n => Except.ok n
    | none => Except.error ("ValueError: invalid literal for int()")
  | _ => Except.error ("TypeError: int() argument")

/-- Python `float(v)`. -/
def pyFloat : JValue → Except String ℚ
  | JValue.bool b => Except.ok (if b then 1 else 0)
  | JValue.num q => Except.ok q
  | JValue.str s =>
    match pyFloatOfString s with
    | some q => Except.ok q
    | none => Except.error ("ValueError: could not convert string to float")
  | _ => Except.error ("TypeError: float() argument")

/-- Rendering of a number for `str()`/`json.dumps` (integers print exactly;
the decimal formatting of non-integer floats is not claim-relevant and is
rendered as `num/den`). -/
def renderQ (q : ℚ) : String :=
  if q.den = 1 then toString q.num else toString q.num ++ "/" ++ toString q.den

mutual
/-- Python `str(v)` for a JSON-like value: scalars as Python prints them, a
string as itself, containers in their repr form.  Only used for the ≤100-char
`_original_data_preview` diagnostics field and the 4-chars-per-token length
estimate; Python quotes container strings with single quotes, rendered here
with double quotes (no claim inspects this text). -/
def pyStr : JValue → String
  | JValue.null => "None"
  | JValue.bool b => if b then "True" else "False"
  | JValue.num q => renderQ q
  | JValue.str s => s
  | JValue.arr xs => "[" ++ pyStrList xs ++ "]"
  | JValue.obj kvs => "\x7b" ++ pyStrObj kvs ++ "\x7d"

def pyStrList : List JValue → String
  | [] => ""
  | [x] => pyStrElem x
  | x :: rest => pyStrElem x ++ ", " ++ pyStrList rest

def pyStrElem : JValue → String
  | JValue.null => "None"
  | JValue.bool b => if b then "True" else "False"
  | JValue.num q => renderQ q
  | JValue.str s => "\"" ++ s ++ "\""
  | JValue.arr xs => "[" ++ pyStrList xs ++ "]"
  | JValue.obj kvs => "\x7b" ++ pyStrObj kvs ++ "\x7d"

def pyStrObj : List (String × JValue) → String
  | [] => ""
  | [kv] => "\"" ++ kv.1 ++ "\": " ++ pyStrElem kv.2
  | kv :: rest => "\"" ++ kv.1 ++ "\": " ++ pyStrElem kv.2 ++ ", " ++ pyStrObj rest
end

def escapeJsonChar (c : Char) : String :=
  if c = '\"' then "\\\""
  else if c = '\\' then "\\\\"
  else if c = '\n' then "\\n"
  else if c = '\t' then "\\t"
  else if c = '\r' then "\\r"
  else String.singleton c

def jsonQuote (s : String) : String :=
  "\"" ++ String.join (s.data.map escapeJsonChar) ++ "\""

mutual
/-- `json.dumps(v, ensure_ascii=False)` with the default separators. -/
def dumps : JValue → String
  | JValue.null => "null"
  | JValue.bool b => if b then "true" else "false"
  | JValue.num q => renderQ q
  | JValue.str s => jsonQuote s
  | JValue.arr xs => "[" ++ dumpsList xs ++ "]"
  | JValue.obj kvs => "\x7b" ++ dumpsObj kvs ++ "\x7d"

def dumpsList : List JValue → String
  | [] => ""
  | [x] => dumps x
  | x :: rest => dumps x ++ ", " ++ dumpsList rest

def dumpsObj : List (String × JValue) → String
  | [] => ""
  | [kv] => jsonQuote kv.1 ++ ": " ++ dumps kv.2
  | kv :: rest => jsonQuote kv.1 ++ ": " ++ dumps kv.2 ++ ", " ++ dumpsObj rest
end

/-! ## `utils/tokenize.py`: graceful parsing -/

def fenceJson : String := "```json"

def fence : String := "```"

def jsonNl : String := "json\n"

/-- `clean_json_string` (`tokenize.py` lines 238-254): strip, remove code
fences, remove a leading `json` line.  (`data.replace("json\n", "", 1)` under
a `startswith("json\n")` guard removes exactly that prefix.) -/
def clean_json_string (s : String) : String :=
  let d0 := pyStripCs s.data
  let d1 := if fenceJson.data.isPrefixOf d0 then pyLStrip (d0.drop fenceJson.length) else d0
  let d2 := if fence.data.isPrefixOf d1 then pyLStrip (d1.drop fence.length) else d1
  let d3 := if fence.data.isSuffixOf d2 then pyRStrip (d2.take (d2.length - fence.length)) else d2
  let d4 := if jsonNl.data.isPrefixOf d3 then pyStripCs (d3.drop jsonNl.length) else d3
  String.mk d4

/-- Keep the prefix of `cs` up to and including the last occurrence of `c`
(the greedy `.*` of the regex, which extends to the last closing char). -/
def takeUpToLast (c : Char) (cs : List Char) : List Char :=
  (cs.reverse.dropWhile (fun x => x ≠ c)).reverse

/-- `re.search(r'\[.*\]|\{.*\}', data, re.DOTALL)`: scan left to right for
the first position opening a bracket/brace that has a matching closing char
later, and extend greedily to the last such closing char. -/
def regexJsonSearch : List Char → Option (List Char)
  | [] => none
  | c :: rest =>
    if c = '[' && rest.contains ']' then some (c :: takeUpToLast ']' rest)
    else if c = '{' && rest.contains '}' then some (c :: takeUpToLast '}' rest)
    else regexJsonSearch rest

/-- Strategy 2 (`try_parse_json_strategies` lines 268-278): regex-extract a
JSON-looking区段 and parse it; `none` models both "no match" and a parse
failure (the caught exceptions). -/
def strategy2 (loads : String → Option JValue) (cs : List Char) : Option JValue :=
  match regexJsonSearch cs with
  | some jsonStr => loads (String.mk jsonStr)
  | none => none

/-- Index of the last occurrence of `c` (Python `str.rfind`, `none` = -1). -/
def lastIdxOf (c : Char) (cs : List Char) : Option ℕ :=
  match cs.reverse.findIdx? (fun x => x = c) with
  | some k => some (cs.length - 1 - k)
  | none => none

def idxToInt : Option ℕ → ℤ
  | some n => (n : ℤ)
  | none => -1

/-- The backward matching scan of strategy 3 (lines 290-299 / 311-320):
walk the candidate right-to-left counting `closeC`/`openC`; when the counter
reaches zero on an `openC`, the suffix from that position is the candidate
JSON string.  The first argument is the **reversed** candidate; `acc` rebuilds
the suffix in order. -/
def matchFromEnd (openC closeC : Char) : List Char → ℤ → List Char → Option (List Char)
  | [], _, _ => none
  | c :: restRev, count, acc =>
    if c = closeC then matchFromEnd openC closeC restRev (count + 1) (c :: acc)
    else if c = openC then
      (if count - 1 = 0 then some (c :: acc) else matchFromEnd openC closeC restRev (count - 1) (c :: acc))
    else matchFromEnd openC closeC restRev count (c :: acc)

/-- Strategy 3 (lines 281-329): find the last `}`/`]`, take the candidate up
to it, scan backwards for the matching opener, and parse the enclosed text. -/
def strategy3 (loads : String → Option JValue) (cs : List Char) : Option JValue :=
  let lastBrace := idxToInt (lastIdxOf '}' cs)
  let lastBracket := idxToInt (lastIdxOf ']' cs)
  if lastBrace > lastBracket then
    match matchFromEnd '{' '}' ((cs.take (lastBrace.toNat + 1)).reverse) 0 [] with
    | some jsonStr => loads (String.mk jsonStr)
    | none => none
  else if lastBracket > lastBrace then
    match matchFromEnd '[' ']' ((cs.take (lastBracket.toNat + 1)).reverse) 0 [] with
    | some jsonStr => loads (String.mk jsonStr)
    | none => none
  else none

def splitOnCharAux (sep : Char) : List Char → List Char → List (List Char)
  | [], acc => [acc.reverse]
  | c :: rest, acc =>
    if c = sep then acc.reverse :: splitOnCharAux sep rest []
    else splitOnCharAux sep rest (c :: acc)

/-- Python `s.split(sep)` for a single-character separator. -/
def splitOnChar (sep : Char) (cs : List Char) : List (List Char) :=
  splitOnCharAux sep cs []

/-- One line of strategy 4 (lines 334-342): strip it and parse it if it
starts with `{` and ends with `}`; parse failures are skipped. -/
def strategy4Line (loads : String → Option JValue) (line : List Char) : Option JValue :=
  let l := pyStripCs line
  if l.head? = some '{' && l.getLast? = some '}' then loads (String.mk l) else none

/-- Strategy 4 (lines 332-348): parse individual lines as JSON objects and
return the collected list if any line parsed. -/
def strategy4 (loads : String → Option JValue) (cs : List Char) : Option JValue :=
  let objects := (splitOnChar '\n' cs).filterMap (strategy4Line loads)
  if objects.isEmpty then none else some (JValue.arr objects)

/-- `try_parse_json_strategies(data, context)` (lines 257-351), parametrized
by the `json.loads` oracle.  Each strategy's Python `return parsed` is the
first `some`; a returned parsed `None` (e.g. `json.loads("null")`) is
indistinguishable to the caller from overall failure, hence the final
normalization of `some JValue.null` to `none`. -/
def try_parse_json_strategies (loads : String → Option JValue) (data : String) : Option JValue :=
  let r :=
    match loads data with
    | some v => some v
    | none =>
      match strategy2 loads data.data with
      | some v => some v
      | none =>
        match strategy3 loads data.data with
        | some v => some v
        | none => strategy4 loads data.data
  match r with
  | some JValue.null => none
  | r' => r'

/-- The falsy-field coercion loop of `create_fallback_response` (lines
360-367): empty strings become `"Unknown"`; the empty-list and empty-dict
branches of the source assign `[]`/`{}` over themselves (no-ops, mirrored as
identity). -/
def coerceTemplateValue : JValue → JValue
  | JValue.str s => if s.isEmpty then JValue.str ("Unknown") else JValue.str s
  | JValue.arr xs => JValue.arr xs
  | JValue.obj kvs => JValue.obj kvs
  | v => v

/-- `str(original_data)[:100] if original_data else "No data"`. -/
def previewStr (original : JValue) : JValue :=
  if pyTruthy original then JValue.str ((pyStr original).take 100) else JValue.str ("No data")

/-- The no-template branch of `create_fallback_response` (lines 377-383). -/
def genericFallback (original : JValue) (context : String) : PyDict :=
  [("error", JValue.str ("JSON parsing failed")),
   ("status", JValue.str ("Unknown")),
   ("context", JValue.str context),
   ("parsing_error", JValue.bool true),
   ("original_data_preview", previewStr original)]

/-- `create_fallback_response(fallback_template, original_data, context)`
(lines 354-383).  `if fallback_template:` is Python truthiness, so an empty
template dict also selects the generic branch. -/
def create_fallback_response (fallback_template : Option PyDict) (original : JValue)
    (context : String) : PyDict :=
  match fallback_template with
  | some tmpl =>
    if tmpl.isEmpty then genericFallback original context
    else
      setKey (setKey (setKey (tmpl.map (fun kv => (kv.1, coerceTemplateValue kv.2)))
        ("_parsing_error") (JValue.bool true))
        ("_context") (JValue.str context))
        ("_original_data_preview") (previewStr original)
  | none => genericFallback original context

/-- The `{"error": "No data", "status": "Unknown"}` mapping of line 213. -/
def noDataFallback : PyDict :=
  [("error", JValue.str ("No data")), ("status", JValue.str ("Unknown"))]

/-- Line 213: `return fallback_template or {...}` — Python `or` falls through
on a falsy (empty) template. -/
def noneFallback (tmpl : Option PyDict) : JValue :=
  match tmpl with
  | some t => if t.isEmpty then JValue.obj noDataFallback else JValue.obj t
  | none => JValue.obj noDataFallback

/-- `graceful_json_parse(data, fallback_template, context)` (lines 198-235),
parametrized by the `json.loads` oracle.  Total: every Python `raise` inside
is caught in the source, and every path returns a value. -/
def graceful_json_parse (loads : String → Option JValue) (data : JValue)
    (fallback_template : Option PyDict) (context : String) : JValue :=
  match data with
  | JValue.null => noneFallback fallback_template
  | JValue.obj kvs => JValue.obj kvs
  | JValue.arr xs => JValue.arr xs
  | JValue.str s =>
    match try_parse_json_strategies loads (clean_json_string s) with
    | some v => v
    | none => JValue.obj (create_fallback_response fallback_template (JValue.str s) context)
  | v => JValue.obj (create_fallback_response fallback_template v context)

/-- `field not in validated_item or not validated_item[field]`. -/
def needsFill (item : PyDict) (f : String) : Bool :=
  match pyLookup item f with
  | none => true
  | some v => pyFalsy v

/-- The required-field backfill loop of `extract_valid_entries` (lines
417-419). -/
def fillRequired : List String → PyDict → PyDict
  | [], item => item
  | f :: rest, item =>
    fillRequired rest (if needsFill item f then setKey item f (JValue.str ("Unknown")) else item)

/-- Validation of one mapping element (lines 416-422): copy, backfill, mark. -/
def validateEntry (required : List String) (item : PyDict) : PyDict :=
  setKey (fillRequired required item) ("_validated") (JValue.bool true)

def extractFromList (xs : List JValue) (required : List String) : List PyDict :=
  xs.filterMap (fun item =>
    match item with
    | JValue.obj kvs => some (validateEntry required kvs)
    | _ => none)

/-- `extract_valid_entries(data, required_fields)` (lines 386-425): a single
dict becomes a one-element list, non-list input yields `[]`, non-dict
elements are skipped, every element is validated. -/
def extract_valid_entries (data : JValue) (required : List String) : List PyDict :=
  match data with
  | JValue.obj kvs => extractFromList [JValue.obj kvs] required
  | JValue.arr xs => extractFromList xs required
  | _ => []

/-- A `json.loads` oracle that fails on every input (every call raises
`JSONDecodeError`). -/
def failLoads : String → Option JValue := fun _ => none

/-- Partial model of the real `json.loads` sufficient for integer literals:
surrounding whitespace, an optional minus sign and decimal digits without a
leading zero are accepted and yield the integer, exactly as the Python
stdlib does (`json.loads("5") == 5`); everything else is rejected. -/
def intLoads : String → Option JValue := fun s =>
  let cs := pyStripCs s.data
  let core := match cs with | '-' :: rest => rest | _ => cs
  let neg := match cs with | '-' :: _ => true | _ => false
  if !core.isEmpty && allDigits core && (core.head? != some '0' || core.length = 1) then
    some (JValue.num (if neg then -((digitsToNatAux core 0 : ℚ)) else ((digitsToNatAux core 0 : ℚ))))
  else none

def isNullV : JValue → Bool
  | JValue.null => true
  | _ => false

/-- Well-formedness of a `json.loads` oracle, true of the Python stdlib: a
successful parse of a string starting with `[` is a list, and with `{` a
dict. -/
def loadsWF (loads : String → Option JValue) : Prop :=
  ∀ s v, loads s = some v →
    (s.data.head? = some '[' → ∃ xs, v = JValue.arr xs) ∧
    (s.data.head? = some '{' → ∃ kvs, v = JValue.obj kvs)

/-- The one non-structured escape of `graceful_json_parse`: the cleaned input
parses directly (strategy 1) as a non-null JSON scalar, which the source
returns unchanged. -/
def directScalar (loads : String → Option JValue) (data : JValue) : Option JValue :=
  match data with
  | JValue.str s =>
    match loads (clean_json_string s) with
    | some v => if isStructured v || isNullV v then none else some v
    | none => none
  | _ => none

def isObjV : JValue → Bool
  | JValue.obj _ => true
  | _ => false

/-- A concrete one-field fallback template (as the callers build, e.g. a
pending-status stub) used to instantiate the fallback-tagging claims. -/
def tmplPending : PyDict := [("status", JValue.str ("pending"))]

def reqC7 : List String := ["drug_name"]

/-- A concrete parsed payload: one mapping element (missing the required
field) and one non-mapping element. -/
def dataC7 : JValue :=
  JValue.arr [JValue.obj [("phase", JValue.str ("I"))], JValue.str ("skip")]

/-- The single validated record `extract_valid_entries` produces for
`dataC7`: original field kept, required field backfilled, marker appended. -/
def eC7 : PyDict :=
  [("phase", JValue.str ("I")), ("drug_name", JValue.str ("Unknown")),
   ("_validated", JValue.bool true)]

/-! ## `agent/nodes/calculate_competitive_score.py`

The scoring summaries have a fixed key set in the source, so they are
modelled by a structure; the two optional marker keys
(`_total_competitors_corrected`, `_combine_error`) become `Bool` fields
recording their presence. -/

/-- The fixed five-phase count mapping `phase_distribution`
(`Preclinical`, `Phase I`, `Phase II`, `Phase III`, `Approved`). -/
structure PhaseDist where
  preclinical : ℤ
  phaseI : ℤ
  phaseII : ℤ
  phaseIII : ℤ
  approved : ℤ
deriving DecidableEq

/-- `sum(phase_distribution.values())`. -/
def PhaseDist.sum (d : PhaseDist) : ℤ :=
  d.preclinical + d.phaseI + d.phaseII + d.phaseIII + d.approved

def PhaseDist.zero : PhaseDist := ⟨0, 0, 0, 0, 0⟩

/-- `weighted_sum = Σ combined_phase_distribution[p] * phase_weights[p]`
with weights 0.2 / 0.4 / 0.6 / 0.8 / 1.0 (lines 300-310), in exact
arithmetic. -/
def weightedSum (d : PhaseDist) : ℚ :=
  (d.preclinical : ℚ) * (0.2 : ℚ) + (d.phaseI : ℚ) * (0.4 : ℚ) +
  (d.phaseII : ℚ) * (0.6 : ℚ) + (d.phaseIII : ℚ) * (0.8 : ℚ) +
  (d.approved : ℚ) * (1.0 : ℚ)

/-- The scoring Aggregate: the fixed key set produced by both
`validate_competitive_analysis_structure` and
`combine_competitive_analysis_results`. -/
structure CompetitiveAnalysis where
  target : JValue
  crowding_score : ℚ
  total_competitors : ℤ
  phase_distribution : PhaseDist
  modalities : List JValue
  notable_acquisitions : List JValue
  white_space_flags : List JValue
  scoring_methodology : JValue
  total_competitors_corrected : Bool
  combine_error : Bool

/-- `create_fallback_competitive_analysis(target_molecule)` (lines 196-213). -/
def create_fallback_competitive_analysis (target_molecule : String) : CompetitiveAnalysis :=
  { target := JValue.str target_molecule
    crowding_score := 0
    total_competitors := 0
    phase_distribution := PhaseDist.zero
    modalities := []
    notable_acquisitions := []
    white_space_flags := [JValue.str ("Insufficient data to analyze competitive landscape")]
    scoring_methodology :=
      JValue.str ("Could not calculate score due to insufficient or invalid data")
    total_competitors_corrected := false
    combine_error := false }

/-- Floor of a rational, written computably (`Int.fdiv` is floor division;
equals `⌊q⌋`, see `ratFloor_eq_floor`). -/
def ratFloor (q : ℚ) : ℤ := Int.fdiv q.num (q.den : ℤ)

/-- Python `min(a, b)` on two numbers (returns the first argument on ties,
as Python does). -/
def ratMin (a b : ℚ) : ℚ := if a ≤ b then a else b

/-- Python `round()` to an integer: round-half-to-even. -/
def pyRoundHalfEven (x : ℚ) : ℤ :=
  let f := ratFloor x
  let r := x - (f : ℚ)
  if r < 1/2 then f
  else if 1/2 < r then f + 1
  else if f % 2 = 0 then f else f + 1

/-- Python `round(x, 3)` in idealized exact arithmetic (the actual crowding
scores are integer multiples of 1/250, where float rounding agrees). -/
def pyRound3 (x : ℚ) : ℚ := ((pyRoundHalfEven (x * 1000) : ℚ)) / 1000

/-- `valid_chunks = [c for c in chunk_results if isinstance(c, dict) and
"error" not in c]` (line 266). -/
def validChunks (chunk_results : List JValue) : List PyDict :=
  chunk_results.filterMap (fun c =>
    match c with
    | JValue.obj kvs => if hasKey kvs ("error") then none else some kvs
    | _ => none)

def bumpPhase (d : PhaseDist) (phase : String) (n : ℤ) : PhaseDist :=
  if phase = "Preclinical" then { d with preclinical := d.preclinical + n }
  else if phase = "Phase I" then { d with phaseI := d.phaseI + n }
  else if phase = "Phase II" then { d with phaseII := d.phaseII + n }
  else if phase = "Phase III" then { d with phaseIII := d.phaseIII + n }
  else { d with approved := d.approved + n }

/-- One `phase, count` item of a chunk's distribution (lines 277-283): keys
outside the five canonical phases are ignored, and a count on which `int()`
raises is skipped (`except (ValueError, TypeError): pass`). -/
def addPhaseCount (d : PhaseDist) (phase : String) (count : JValue) : PhaseDist :=
  if phase = "Preclinical" || phase = "Phase I" || phase = "Phase II" ||
      phase = "Phase III" || phase = "Approved" then
    match pyIntConv count with
    | Except.ok n => bumpPhase d phase n
    | Except.error _ => d
  else d

/-- Merge one chunk's `phase_distribution` (if present and a dict) into the
running counts (lines 274-283). -/
def addChunkDist (d : PhaseDist) (chunk : PyDict) : PhaseDist :=
  match pyLookup chunk ("phase_distribution") with
  | some (JValue.obj pd) => pd.foldl (fun acc kv => addPhaseCount acc kv.1 kv.2) d
  | _ => d

/-- The combined five-phase counts over all valid chunks. -/
def combinedDist (chunks : List PyDict) : PhaseDist :=
  chunks.foldl addChunkDist PhaseDist.zero

/-- Collect a list-valued field across chunks in order (the
modalities/acquisitions/white-space accumulation of lines 285-295). -/
def collectListField (key : String) (chunks : List PyDict) : List JValue :=
  chunks.foldl (fun acc chunk =>
    match pyLookup chunk key with
    | some (JValue.arr xs) => acc ++ xs
    | _ => acc) []

/-- Python-hashable JSON values (dicts and lists are unhashable). -/
def pyHashable : JValue → Bool
  | JValue.arr _ => false
  | JValue.obj _ => false
  | _ => true

def dedupJ : List JValue → List JValue → List JValue
  | [], acc => acc.reverse
  | x :: rest, acc =>
    if acc.any (fun y => JValue.beq y x) then dedupJ rest acc else dedupJ rest (x :: acc)

/-- `list(set(xs))` (lines 317-319): raises `TypeError` on an unhashable
element; a Python set's iteration order is unspecified, modelled as
first-occurrence order (no claim depends on these fields). -/
def dedupHashable (xs : List JValue) : Except String (List JValue) :=
  if xs.all pyHashable then Except.ok (dedupJ xs [])
  else Except.error ("TypeError: unhashable type")

/-- Python `format(x, ".2f")` (claims never inspect this text; negative
values render without the Python sign convention). -/
def format2f (q : ℚ) : String :=
  let cents := pyRoundHalfEven (q * 100)
  let frac := (cents % 100).toNat
  toString (cents / 100) ++ "." ++ (if frac < 10 then "0" ++ toString frac else toString frac)

/-- The regenerated `scoring_methodology` f-string of line 329. -/
def methodologyString (ws : ℚ) (nChunks : ℕ) : String :=
  "The crowding score is calculated by assigning weights to phases: Preclinical = 0.2, Phase I = 0.4, Phase II = 0.6, Phase III = 0.8, Approved = 1.0. The weighted sum (" ++
    format2f ws ++
    ") is normalized over a maximum saturation of 50 to produce a score between 0 and 1. Combined from " ++
    toString nChunks ++ " data chunks."

/-- `combine_competitive_analysis_results(chunk_results, target_molecule)`
(lines 249-330): filter valid chunks (fallback tagged `_combine_error` if
none), merge phase counts, recompute the total as their sum, recompute the
crowding score as `round(min(weighted_sum / 50, 1.0), 3)`, deduplicate the
collected lists (Python raises `TypeError` on unhashable entries —
`Except.error`), and regenerate the methodology string. -/
def combine_competitive_analysis_results (chunk_results : List JValue)
    (target_molecule : String) : Except String CompetitiveAnalysis :=
  let valid := validChunks chunk_results
  if valid.isEmpty then
    Except.ok { create_fallback_competitive_analysis target_molecule with combine_error := true }
  else
    let dist := combinedDist valid
    match dedupHashable (collectListField ("modalities") valid) with
    | Except.error e => Except.error e
    | Except.ok mods =>
    match dedupHashable (collectListField ("notable_acquisitions") valid) with
    | Except.error e => Except.error e
    | Except.ok acqs =>
    match dedupHashable (collectListField ("white_space_flags") valid) with
    | Except.error e => Except.error e
    | Except.ok flags =>
      let ws := weightedSum dist
      let crowding := ratMin (ws / 50) 1
      Except.ok
        { target := JValue.str target_molecule
          crowding_score := pyRound3 crowding
          total_competitors := dist.sum
          phase_distribution := dist
          modalities := mods
          notable_acquisitions := acqs
          white_space_flags := flags
          scoring_methodology := JValue.str (methodologyString ws valid.length)
          total_competitors_corrected := false
          combine_error := false }

/-- Python `.get` on a value that is not a dict raises `AttributeError`. -/
def asDict : JValue → Except String PyDict
  | JValue.obj kvs => Except.ok kvs
  | _ => Except.error ("AttributeError: object has no attribute get")

/-- `data.get(key, []) if isinstance(data.get(key), list) else []`. -/
def listFieldOrEmpty (d : PyDict) (key : String) : List JValue :=
  match pyLookup d key with
  | some (JValue.arr xs) => xs
  | _ => []

/-- `validate_competitive_analysis_structure(data, target_molecule)` (lines
216-246): rebuild the summary with defaults (the `float()`/`int()`
conversions and `.get` on a non-dict `phase_distribution` can raise —
`Except.error`), clamp an out-of-range crowding score to 0.0, and force
`total_competitors` to the phase-distribution sum, flagging a correction
when the reported total disagreed. -/
def validate_competitive_analysis_structure (data : PyDict) (target_molecule : String) :
    Except String CompetitiveAnalysis :=
  match pyFloat (pyGetD data ("crowding_score") (JValue.num 0)) with
  | Except.error e => Except.error e
  | Except.ok cs =>
  match pyIntConv (pyGetD data ("total_competitors") (JValue.num 0)) with
  | Except.error e => Except.error e
  | Except.ok tc =>
  match asDict (pyGetD data ("phase_distribution") (JValue.obj [])) with
  | Except.error e => Except.error e
  | Except.ok pd =>
  match pyIntConv (pyGetD pd ("Preclinical") (JValue.num 0)) with
  | Except.error e => Except.error e
  | Except.ok pre =>
  match pyIntConv (pyGetD pd ("Phase I") (JValue.num 0)) with
  | Except.error e => Except.error e
  | Except.ok p1 =>
  match pyIntConv (pyGetD pd ("Phase II") (JValue.num 0)) with
  | Except.error e => Except.error e
  | Except.ok p2 =>
  match pyIntConv (pyGetD pd ("Phase III") (JValue.num 0)) with
  | Except.error e => Except.error e
  | Except.ok p3 =>
  match pyIntConv (pyGetD pd ("Approved") (JValue.num 0)) with
  | Except.error e => Except.error e
  | Except.ok ap =>
    let dist : PhaseDist := ⟨pre, p1, p2, p3, ap⟩
    let calcTotal := dist.sum
    Except.ok
      { target := pyGetD data ("target") (JValue.str target_molecule)
        crowding_score := if cs < 0 ∨ cs > 1 then 0 else cs
        total_competitors := if tc ≠ calcTotal then calcTotal else tc
        phase_distribution := dist
        modalities := listFieldOrEmpty data ("modalities")
        notable_acquisitions := listFieldOrEmpty data ("notable_acquisitions")
        white_space_flags := listFieldOrEmpty data ("white_space_flags")
        scoring_methodology := pyGetD data ("scoring_methodology")
          (JValue.str ("Unknown methodology"))
        total_competitors_corrected := decide (tc ≠ calcTotal)
        combine_error := false }

/-! Observation helpers on scoring results (used to state the claims). -/

def resultCrowding (e : Except String CompetitiveAnalysis) : Option ℚ :=
  match e with
  | Except.ok r => some r.crowding_score
  | Except.error _ => none

def resultTotal (e : Except String CompetitiveAnalysis) : Option ℤ :=
  match e with
  | Except.ok r => some r.total_competitors
  | Except.error _ => none

def resultDistSum (e : Except String CompetitiveAnalysis) : Option ℤ :=
  match e with
  | Except.ok r => some r.phase_distribution.sum
  | Except.error _ => none

def resultCorrectedFlag (e : Except String CompetitiveAnalysis) : Option Bool :=
  match e with
  | Except.ok r => some r.total_competitors_corrected
  | Except.error _ => none

/-- The specified score recombination law, written from the spec's words:
`round(min(1.0, weighted_sum / 50), 3)` over the result's own phase counts —
compared against `resultCrowding` for the refinement claim C2. -/
def specCrowding (e : Except String CompetitiveAnalysis) : Option ℚ :=
  match e with
  | Except.ok r => some (pyRound3 (ratMin (weightedSum r.phase_distribution / 50) 1))
  | Except.error _ => none

/-- The input's own reported total, as `int()` converts it. -/
def inputReportedTotal (d : PyDict) : Except String ℤ :=
  pyIntConv (pyGetD d ("total_competitors") (JValue.num 0))

/-- All five combined counts are non-negative. -/
def distNonneg (d : PhaseDist) : Prop :=
  0 ≤ d.preclinical ∧ 0 ≤ d.phaseI ∧ 0 ≤ d.phaseII ∧ 0 ≤ d.phaseIII ∧ 0 ≤ d.approved

instance : Decidable (distNonneg d) := by
  unfold distNonneg
  infer_instance

/-- The claim's scenario chunk: phase counts 10/14/9/6/3. -/
def scenarioChunk : JValue :=
  JValue.obj [("phase_distribution", JValue.obj
    [("Preclinical", JValue.num 10), ("Phase I", JValue.num 14),
     ("Phase II", JValue.num 9), ("Phase III", JValue.num 6),
     ("Approved", JValue.num 3)])]

/-- A chunk whose model output reports a negative Preclinical count. -/
def negChunk : JValue :=
  JValue.obj [("phase_distribution", JValue.obj [("Preclinical", JValue.num (-5))])]

/-- A validate input whose reported total (100) disagrees with its phase
counts (sum 2). -/
def mismatchInput : PyDict :=
  [("total_competitors", JValue.num 100),
   ("phase_distribution", JValue.obj [("Preclinical", JValue.num 2)])]

/-! ## `agent/nodes/normalize_data.py`: `validate_normalized_structure` -/

def valid_phases : List String :=
  ["Preclinical", "Phase I", "Phase II", "Phase III", "Approved"]

/-- The per-entry reduction of `validate_normalized_structure` (lines
254-266): exactly the seven fixed fields (defaulting to `"Unknown"`, or `""`
for the acquisition/licensing signals) plus `_validated = True`; every other
field of the input entry is dropped. -/
def normalizeEntry (entry : PyDict) : PyDict :=
  [("drug_name", pyGetD entry ("drug_name") (JValue.str ("Unknown"))),
   ("status", pyGetD entry ("status") (JValue.str ("Unknown"))),
   ("modality", pyGetD entry ("modality") (JValue.str ("Unknown"))),
   ("sponsor", pyGetD entry ("sponsor") (JValue.str ("Unknown"))),
   ("indication", pyGetD entry ("indication") (JValue.str ("Unknown"))),
   ("mechanism_of_action", pyGetD entry ("mechanism_of_action") (JValue.str ("Unknown"))),
   ("acquisition/licensing signals",
     pyGetD entry ("acquisition/licensing signals") (JValue.str (""))),
   ("_validated", JValue.bool true)]

/-- The key set of a normalized entry, in construction order. -/
def normalizedKeys : List String :=
  ["drug_name", "status", "modality", "sponsor", "indication", "mechanism_of_action",
   "acquisition/licensing signals", "_validated"]

/-- One phase's value (lines 249-269): a list keeps its dict-shaped entries
(each reduced by `normalizeEntry`); a non-list value becomes `[]`. -/
def normalizePhaseValue : JValue → JValue
  | JValue.arr entries => JValue.arr (entries.filterMap (fun e =>
      match e with
      | JValue.obj kvs => some (JValue.obj (normalizeEntry kvs))
      | _ => none))
  | _ => JValue.arr []

/-- `validate_normalized_structure(data)` (lines 242-273): rebuild the
mapping over exactly the five phases, in order; a phase missing from the
input becomes `[]`; input keys outside the five phases are discarded. -/
def validate_normalized_structure (data : PyDict) : PyDict :=
  valid_phases.map (fun phase =>
    (phase, match pyLookup data phase with
      | some v => normalizePhaseValue v
      | none => JValue.arr []))

/-- A concrete normalization input: a phase with one valid and one non-dict
entry, an unknown key, and a phase whose value is not a list. -/
def dC10 : PyDict :=
  [("Phase I", JValue.arr [JValue.obj [("drug_name", JValue.str ("X")),
      ("extra", JValue.num 1)], JValue.str ("bad")]),
   ("Garbage", JValue.num 1),
   ("Phase II", JValue.str ("oops"))]

/-! ## `agent/nodes/analyze_scrapped_data.py`

The LLM completion call (`rate_limited_api_call(chain.invoke, ...)`) is an
external effect: each sub-pipeline gets an oracle `ℕ → Except String String`
giving the outcome (returned text, or raised exception message) of the call
on its i-th batch. -/

/-- `estimate_tokens(text)` (lines 60-64): `len(str(text)) // 4`, with lists
and dicts serialized by `json.dumps` first. -/
def estimate_tokens : JValue → ℕ
  | JValue.arr xs => (dumps (JValue.arr xs)).length / 4
  | JValue.obj kvs => (dumps (JValue.obj kvs)).length / 4
  | v => (pyStr v).length / 4

/-- `range(0, len(xs), k)` slicing into chunks of `k` (fuel-driven; every
call site uses `k ≥ 1`, where `xs.length` fuel always suffices — Python
raises on `k = 0`). -/
def chopFuel {α : Type} : ℕ → ℕ → List α → List (List α)
  | 0, _, _ => []
  | _, _, [] => []
  | fuel + 1, k, xs => xs.take k :: chopFuel fuel k (xs.drop k)

/-- The greedy batching loop of `split_data_by_tokens` (lines 86-104):
flush the current batch when the next item would exceed the budget, then
append the item unconditionally (an oversized item joins a fresh batch). -/
def splitListGreedyGo (maxT : ℕ) :
    List JValue → List (List JValue) → List JValue → ℕ → List (List JValue)
  | [], batches, cur, _ => if cur.isEmpty then batches else batches ++ [cur]
  | item :: rest, batches, cur, curTok =>
    let it := estimate_tokens item
    if curTok + it > maxT && !cur.isEmpty then
      splitListGreedyGo maxT rest (batches ++ [cur]) [item] it
    else
      splitListGreedyGo maxT rest batches (cur ++ [item]) (curTok + it)

/-- The non-string tail of `split_data_by_tokens` (lines 84-104): lists are
batched greedily; any other value is kept whole if within budget and
dropped otherwise. -/
def splitNonStrData (maxT : ℕ) : JValue → List JValue
  | JValue.arr items => (splitListGreedyGo maxT items [] [] 0).map JValue.arr
  | v => if estimate_tokens v ≤ maxT then [v] else []

/-- `split_data_by_tokens(data, max_tokens_per_batch)` (lines 66-104):
falsy data yields no batches; strings are parsed first (an unparseable
string is kept whole if within budget, else sliced into `3 * maxT`-char
pieces). -/
def split_data_by_tokens (loads : String → Option JValue) (data : JValue) (maxT : ℕ) :
    List JValue :=
  if pyFalsy data then []
  else
    match data with
    | JValue.str s =>
      (match loads s with
       | some parsed => splitNonStrData maxT parsed
       | none =>
         if estimate_tokens (JValue.str s) ≤ maxT then [JValue.str s]
         else (chopFuel s.length (maxT * 3) s.data).map (fun cs => JValue.str (String.mk cs)))
    | v => splitNonStrData maxT v

/-- Count-based batching shared by the PubMed/patent splitters. -/
def splitByCount (v : JValue) (k : ℕ) : List JValue :=
  match v with
  | JValue.arr xs => (chopFuel xs.length k xs).map JValue.arr
  | w => [w]

/-- `split_pubmed_data(pubmed_data, batch_size)` (lines 106-124). -/
def split_pubmed_data (loads : String → Option JValue) (pubmed : JValue) (k : ℕ) :
    List JValue :=
  if pyFalsy pubmed then []
  else
    match pubmed with
    | JValue.str s =>
      (match loads s with
       | some parsed => splitByCount parsed k
       | none => [JValue.str s])
    | v => splitByCount v k

/-- `split_patent_abstracts_data(patent_abstracts_data, batch_size)`
(lines 306-320). -/
def split_patent_abstracts_data (loads : String → Option JValue) (d : JValue) (k : ℕ) :
    List JValue :=
  if pyFalsy d then []
  else
    match d with
    | JValue.str s =>
      (match loads s with
       | some parsed => splitByCount parsed k
       | none => [JValue.str s])
    | v => splitByCount v k

/-- `create_fallback_clinical_entry(target_molecule, source)`. -/
def create_fallback_clinical_entry (target_molecule : String) (source : String) : PyDict :=
  [("drug_name", JValue.str ("Unknown")),
   ("phase", JValue.str ("Preclinical")),
   ("status", JValue.str ("Unknown")),
   ("modality", JValue.str ("Unknown")),
   ("sponsor", JValue.str ("Unknown")),
   ("indication", JValue.str ("Unknown")),
   ("mechanism_of_action", JValue.str ("Unknown")),
   ("acquisition/licensing signals", JValue.str ("")),
   ("_fallback_entry", JValue.bool true),
   ("_target", JValue.str target_molecule),
   ("_source", JValue.str source)]

/-- The extraction stage's required-field contract. -/
def requiredClinicalFields : List String :=
  ["drug_name", "phase", "status", "modality", "sponsor", "indication", "mechanism_of_action"]

/-- The `except` arm of the clinical/EUCTR batch loops (lines 184-190 and
222-228): one fallback entry tagged with the error and the 1-based batch
index. -/
def batchFailureEntry (target : String) (source : String) (i : ℕ) (msg : String) : PyDict :=
  setKey (setKey (setKey (create_fallback_clinical_entry target source)
    ("_processing_error") (JValue.bool true))
    ("_batch") (JValue.num ((i : ℚ) + 1)))
    ("_error_message") (JValue.str msg)

/-- One iteration of the clinical-trials loop (lines 154-190): a successful
call's text is gracefully parsed and validated; a raised call contributes
exactly the one tagged fallback entry. -/
def clinicalBatchRecords (loads : String → Option JValue) (target : String) (i : ℕ)
    (callResult : Except String String) : List JValue :=
  match callResult with
  | Except.ok txt =>
    (extract_valid_entries
      (graceful_json_parse loads (JValue.str txt)
        (some (create_fallback_clinical_entry target ("Clinical Trials")))
        ("Clinical Trials Batch " ++ toString (i + 1)))
      requiredClinicalFields).map JValue.obj
  | Except.error msg => [JValue.obj (batchFailureEntry target ("Clinical Trials") i msg)]

/-- One iteration of the EUCTR loop (lines 192-228). -/
def euctrBatchRecords (loads : String → Option JValue) (target : String) (i : ℕ)
    (callResult : Except String String) : List JValue :=
  match callResult with
  | Except.ok txt =>
    (extract_valid_entries
      (graceful_json_parse loads (JValue.str txt)
        (some (create_fallback_clinical_entry target ("EUCTR")))
        ("EUCTR Batch " ++ toString (i + 1)))
      requiredClinicalFields).map JValue.obj
  | Except.error msg => [JValue.obj (batchFailureEntry target ("EUCTR") i msg)]

/-- The `all_results` accumulation over enumerated batches. -/
def batchLoop (recs : ℕ → Except String String → List JValue)
    (call : ℕ → Except String String) : List (ℕ × JValue) → List JValue → List JValue
  | [], acc => acc
  | (i, _) :: rest, acc => batchLoop recs call rest (acc ++ recs i (call i))

/-- `process_clinical_euctr_batch(target, clinical, euctr)` (lines 147-230):
batch both sources at a 6000-token budget and run the two loops in order. -/
def process_clinical_euctr_batch (callC callE : ℕ → Except String String)
    (loads : String → Option JValue) (target : String) (clinical euctr : JValue) :
    List JValue :=
  batchLoop (euctrBatchRecords loads target) callE
    (split_data_by_tokens loads euctr 6000).enum
    (batchLoop (clinicalBatchRecords loads target) callC
      (split_data_by_tokens loads clinical 6000).enum [])

/-- `process_pubmed_batch(target, batch)` (lines 232-269): the internal
`try/except` makes a raised call return exactly one tagged fallback (no
batch index at this level). -/
def process_pubmed_batch (loads : String → Option JValue) (target : String)
    (callResult : Except String String) : List JValue :=
  match callResult with
  | Except.ok txt =>
    (extract_valid_entries
      (graceful_json_parse loads (JValue.str txt)
        (some (create_fallback_clinical_entry target ("PubMed"))) ("PubMed Batch"))
      requiredClinicalFields).map JValue.obj
  | Except.error msg =>
    [JValue.obj (setKey (setKey (create_fallback_clinical_entry target ("PubMed"))
      ("_processing_error") (JValue.bool true)) ("_error_message") (JValue.str msg))]

/-- `process_patent_abstracts_batch(target, batch)` (lines 271-304). -/
def process_patent_abstracts_batch (loads : String → Option JValue) (target : String)
    (callResult : Except String String) : List JValue :=
  match callResult with
  | Except.ok txt =>
    (extract_valid_entries
      (graceful_json_parse loads (JValue.str txt)
        (some (create_fallback_clinical_entry target ("Patent Abstracts")))
        ("Patent Abstracts Batch"))
      requiredClinicalFields).map JValue.obj
  | Except.error msg =>
    [JValue.obj (setKey (setKey (create_fallback_clinical_entry target ("Patent Abstracts"))
      ("_processing_error") (JValue.bool true)) ("_error_message") (JValue.str msg))]

/-- `combine_results(batch_results)` (lines 325-360): skip falsy entries,
splice lists, append dicts; anything else goes through the graceful parser
(whose scalar results are silently dropped; the `except` arm is unreachable
since `graceful_json_parse` never raises). -/
def combine_results (loads : String → Option JValue) (batch_results : List JValue) :
    List JValue :=
  batch_results.foldl (fun acc result =>
    if pyFalsy result then acc
    else
      match result with
      | JValue.arr xs => acc ++ xs
      | JValue.obj kvs => acc ++ [JValue.obj kvs]
      | other =>
        match graceful_json_parse loads other none ("Combine Results") with
        | JValue.arr xs => acc ++ xs
        | JValue.obj kvs => acc ++ [JValue.obj kvs]
        | _ => acc) []

/-- The `batch_results` assembly of `analyze_scrapped_data` (lines 372-434):
clinical+EUCTR sub-pipeline when either source is truthy, then the PubMed
batches (size 15), then the patent-abstract batches (size 10).  The
sub-batch processors catch their own call's exception, so the outer
per-batch `except` arms are unreachable in this model. -/
def analyzeBatchResults (callC callE callPM callPA : ℕ → Except String String)
    (loads : String → Option JValue) (target : String)
    (clinical euctr pubmed patents : JValue) : List JValue :=
  (if pyTruthy clinical || pyTruthy euctr then
    process_clinical_euctr_batch callC callE loads target clinical euctr
  else []) ++
  (if pyTruthy pubmed then
    ((split_pubmed_data loads pubmed 15).enum.map (fun ib =>
      process_pubmed_batch loads target (callPM ib.1))).flatten
  else []) ++
  (if pyTruthy patents then
    ((split_patent_abstracts_data loads patents 10).enum.map (fun ib =>
      process_patent_abstracts_batch loads target (callPA ib.1))).flatten
  else [])

/-- `analyze_scrapped_data` result (lines 435-456): the combined records,
or exactly one synthesized fallback when they are empty. -/
def analyze_scrapped_data (callC callE callPM callPA : ℕ → Except String String)
    (loads : String → Option JValue) (target : String)
    (clinical euctr pubmed patents : JValue) : List JValue :=
  let combined := combine_results loads
    (analyzeBatchResults callC callE callPM callPA loads target clinical euctr pubmed patents)
  if combined.isEmpty then [JValue.obj (create_fallback_clinical_entry target ("No Data"))]
  else combined

/-- A completion-call oracle on which every call raises. -/
def downCalls : ℕ → Except String String := fun _ => Except.error ("LLM unavailable")
/-! ### C4: chunk completeness -/

theorem splitJsonArrayGo_flatten (cost : JValue → ℕ) (maxTokens : ℕ) :
    ∀ (items : List JValue) (chunks : List (List JValue)) (cur : List JValue) (curTok : ℕ),
      (splitJsonArrayGo cost maxTokens items chunks cur curTok).flatten =
        chunks.flatten ++ cur ++ items := by
  intro items
  induction items with
  | nil =>
    intro chunks cur curTok
    by_cases h : cur.isEmpty
    · simp [splitJsonArrayGo, h, List.isEmpty_iff.mp h]
    · simp [splitJsonArrayGo, h]
  | cons item rest ih =>
    intro chunks cur curTok
    simp only [splitJsonArrayGo]
    by_cases h : (decide (curTok + (cost item + 1) > maxTokens) && !cur.isEmpty) = true
    · rw [if_pos h, ih]
      simp
    · rw [if_neg h, ih]
      simp

theorem splitJsonObjectGo_flatten (cost : String × JValue → ℕ) (maxTokens : ℤ) :
    ∀ (items : List (String × JValue)) (chunks : List (List (String × JValue)))
      (cur : List (String × JValue)) (curTok : ℤ),
      (splitJsonObjectGo cost maxTokens items chunks cur curTok).flatten =
        chunks.flatten ++ cur ++ items := by
  intro items
  induction items with
  | nil =>
    intro chunks cur curTok
    by_cases h : cur.isEmpty
    · simp [splitJsonObjectGo, h, List.isEmpty_iff.mp h]
    · simp [splitJsonObjectGo, h]
  | cons kv rest ih =>
    intro chunks cur curTok
    simp only [splitJsonObjectGo]
    by_cases h : (decide (curTok + ((cost kv : ℤ) - 2) > maxTokens) && !cur.isEmpty) = true
    · rw [if_pos h, ih]
      simp
    · rw [if_neg h, ih]
      simp

/-- C4: for every list payload and every budget, concatenating the chunks
returned by `split_json_array` in order reproduces exactly the original
list's elements in their original order (no element lost or duplicated);
likewise `split_json_object` over a mapping reproduces exactly the original
key/value pairs in original key order.  (Stated for all budgets, which
subsumes the claim's `budget ≥ 1`; the JSON-string serialization of each
chunk performed by the source is inverted by `json.loads`, so chunk-level
concatenation is exactly the claim's parse-and-concatenate.) -/
theorem C4_chunk_completeness :
    (∀ (cost : JValue → ℕ) (maxTokens : ℕ) (arr : List JValue),
      (split_json_array cost maxTokens arr).flatten = arr) ∧
    (∀ (cost : String × JValue → ℕ) (maxTokens : ℤ) (obj : List (String × JValue)),
      (split_json_object cost maxTokens obj).flatten = obj) := by
  constructor
  · intro cost maxTokens arr
    rw [split_json_array, splitJsonArrayGo_flatten]
    simp
  · intro cost maxTokens obj
    rw [split_json_object, splitJsonObjectGo_flatten]
    simp

/-! ### C5: chunk budget -/

theorem splitJsonArrayGo_mem_mono (cost : JValue → ℕ) (maxTokens : ℕ) :
    ∀ (items : List JValue) (chunks : List (List JValue)) (cur : List JValue)
      (curTok : ℕ) (c : List JValue), c ∈ chunks →
      c ∈ splitJsonArrayGo cost maxTokens items chunks cur curTok := by
  intro items
  induction items with
  | nil =>
    intro chunks cur curTok c hc
    by_cases h : cur.isEmpty
    · simpa [splitJsonArrayGo, h] using hc
    · rw [splitJsonArrayGo, if_neg h]
      exact List.mem_append_left _ hc
  | cons item rest ih =>
    intro chunks cur curTok c hc
    simp only [splitJsonArrayGo]
    by_cases h : (decide (curTok + (cost item + 1) > maxTokens) && !cur.isEmpty) = true
    · rw [if_pos h]
      exact ih _ _ _ c (List.mem_append_left _ hc)
    · rw [if_neg h]
      exact ih _ _ _ c hc

theorem splitJsonArrayGo_cur_mem (cost : JValue → ℕ) (maxTokens : ℕ)
    (items : List JValue) (chunks : List (List JValue)) (cur : List JValue)
    (curTok : ℕ) (hne : cur ≠ []) (hover : maxTokens < curTok) :
    cur ∈ splitJsonArrayGo cost maxTokens items chunks cur curTok := by
  cases items with
  | nil =>
    rw [splitJsonArrayGo, if_neg (fun hh => hne (List.isEmpty_iff.mp hh))]
    exact List.mem_append_right _ (List.mem_singleton.mpr rfl)
  | cons item rest =>
    simp only [splitJsonArrayGo]
    rw [if_pos]
    · exact splitJsonArrayGo_mem_mono cost maxTokens rest _ _ _ cur
        (List.mem_append_right _ (List.mem_singleton.mpr rfl))
    · simp only [Bool.and_eq_true, decide_eq_true_eq, Bool.not_eq_true',
        List.isEmpty_eq_false]
      exact ⟨by omega, hne⟩

theorem chunkTokens_append_singleton (cost : JValue → ℕ) (c : List JValue) (x : JValue) :
    chunkTokens cost (c ++ [x]) = chunkTokens cost c + (cost x + 1) := by
  simp [chunkTokens]
  omega

theorem splitJsonArrayGo_budget (cost : JValue → ℕ) (maxTokens : ℕ) :
    ∀ (items : List JValue) (chunks : List (List JValue)) (cur : List JValue) (curTok : ℕ),
      (∀ c ∈ chunks, chunkTokens cost c ≤ maxTokens ∨ ∃ x, c = [x]) →
      ((cur = [] ∧ curTok = 2) ∨
        (cur ≠ [] ∧ curTok = chunkTokens cost cur ∧
          (curTok ≤ maxTokens ∨ ∃ x, cur = [x]))) →
      ∀ c ∈ splitJsonArrayGo cost maxTokens items chunks cur curTok,
        chunkTokens cost c ≤ maxTokens ∨ ∃ x, c = [x] := by
  intro items
  induction items with
  | nil =>
    intro chunks cur curTok hchunks hinv c hc
    by_cases h : cur.isEmpty
    · rw [splitJsonArrayGo, if_pos h] at hc
      exact hchunks c hc
    · rw [splitJsonArrayGo, if_neg h] at hc
      rcases List.mem_append.mp hc with hl | hr
      · exact hchunks c hl
      · rcases hinv with ⟨he, _⟩ | ⟨_, htok, hdisj⟩
        · exact absurd (List.isEmpty_iff.mpr he) h
        · rw [List.mem_singleton.mp hr]
          rcases hdisj with hle | hx
          · exact Or.inl (htok ▸ hle)
          · exact Or.inr hx
  | cons item rest ih =>
    intro chunks cur curTok hchunks hinv c hc
    simp only [splitJsonArrayGo] at hc
    by_cases h : (decide (curTok + (cost item + 1) > maxTokens) && !cur.isEmpty) = true
    · rw [if_pos h] at hc
      refine ih _ _ _ ?_ ?_ c hc
      · intro c' hc'
        rcases List.mem_append.mp hc' with hl | hr
        · exact hchunks c' hl
        · rcases hinv with ⟨he, _⟩ | ⟨hne, htok, hdisj⟩
          · rw [Bool.and_eq_true] at h
            rw [Bool.not_eq_true', List.isEmpty_eq_false] at h
            exact absurd he h.2
          · rw [List.mem_singleton.mp hr]
            rcases hdisj with hle | hx
            · exact Or.inl (htok ▸ hle)
            · exact Or.inr hx
      · exact Or.inr ⟨by simp, by simp [chunkTokens], Or.inr ⟨item, rfl⟩⟩
    · rw [if_neg h] at hc
      refine ih _ _ _ hchunks ?_ c hc
      rcases hinv with ⟨he, htok⟩ | ⟨hne, htok, hdisj⟩
      · subst he
        exact Or.inr ⟨by simp, by simp [chunkTokens, htok], Or.inr ⟨item, by simp⟩⟩
      · rw [Bool.and_eq_true, not_and_or] at h
        rcases h with hle | hemp
        · simp only [decide_eq_true_eq, not_lt, gt_iff_lt] at hle
          refine Or.inr ⟨by simp [hne], ?_, Or.inl (by omega)⟩
          rw [chunkTokens_append_singleton, ← htok]
        · simp only [Bool.not_eq_true', Bool.not_eq_false, List.isEmpty_iff] at hemp
          exact absurd hemp hne

theorem splitJsonArrayGo_oversized (cost : JValue → ℕ) (maxTokens : ℕ)
    (x : JValue) (hx : maxTokens < cost x) :
    ∀ (items : List JValue) (chunks : List (List JValue)) (cur : List JValue)
      (curTok : ℕ), x ∈ items →
      [x] ∈ splitJsonArrayGo cost maxTokens items chunks cur curTok := by
  intro items
  induction items with
  | nil => intro _ _ _ h; cases h
  | cons item rest ih =>
    intro chunks cur curTok hmem
    rcases List.mem_cons.mp hmem with heq | htail
    · subst heq
      simp only [splitJsonArrayGo]
      by_cases hnil : cur = []
      · subst hnil
        rw [if_neg (by simp)]
        simp only [List.nil_append]
        exact splitJsonArrayGo_cur_mem cost maxTokens rest _ [x] _ (by simp) (by omega)
      · rw [if_pos (by
          simp only [Bool.and_eq_true, decide_eq_true_eq, Bool.not_eq_true',
            List.isEmpty_eq_false]
          exact ⟨by omega, hnil⟩)]
        exact splitJsonArrayGo_cur_mem cost maxTokens rest _ [x] _ (by simp) (by omega)
    · simp only [splitJsonArrayGo]
      by_cases h : (decide (curTok + (cost item + 1) > maxTokens) && !cur.isEmpty) = true
      · rw [if_pos h]; exact ih _ _ _ htail
      · rw [if_neg h]; exact ih _ _ _ htail

/-- C5 (amended): every chunk returned by `split_json_array` has estimated
token cost (the code's own accounting `chunkTokens`: 2 bracket tokens plus
`cost item + 1` per element) at most the budget, **except** chunks consisting
of exactly one element; a singleton chunk `[x]` has estimated cost exactly
`cost x + 3`, so it can exceed the budget only when its element's own cost is
within 3 tokens of (or exceeds) the budget; and every element whose own cost
exceeds the budget is placed alone in its own chunk, never split and never
dropped.  (The claim as stated — that the only over-budget chunks are
singletons whose element's *own* cost exceeds the budget — fails because of
the fixed 3-token bracket/comma overhead; see the counterexample.) -/
theorem C5_chunk_budget_amended :
    (∀ (cost : JValue → ℕ) (maxTokens : ℕ) (arr : List JValue),
      ∀ c ∈ split_json_array cost maxTokens arr,
        chunkTokens cost c ≤ maxTokens ∨ ∃ x, c = [x]) ∧
    (∀ (cost : JValue → ℕ) (x : JValue), chunkTokens cost [x] = cost x + 3) ∧
    (∀ (cost : JValue → ℕ) (maxTokens : ℕ) (arr : List JValue) (x : JValue),
      x ∈ arr → maxTokens < cost x → [x] ∈ split_json_array cost maxTokens arr) := by
  refine ⟨?_, ?_, ?_⟩
  · intro cost maxTokens arr c hc
    exact splitJsonArrayGo_budget cost maxTokens arr [] [] 2
      (by intro c' hc'; cases hc') (Or.inl ⟨rfl, rfl⟩) c hc
  · intro cost x
    simp [chunkTokens]
    omega
  · intro cost maxTokens arr x hx hover
    exact splitJsonArrayGo_oversized cost maxTokens x hover arr [] [] 2 hx

/-- Witness for C5: with the constant estimator `cost10` (10 tokens per
element) and budget 25, the first returned chunk holds two elements and is
within budget; with budget 3 every element is oversized and lands alone in
its own chunk. -/
theorem C5_chunk_budget_amended_witness :
    chunkTokens cost10 [JValue.null, JValue.bool true] ≤ 25 ∧
    [JValue.num 3] ∈ split_json_array cost10 3 [JValue.num 3, JValue.null] := by
  constructor
  · have hs : split_json_array cost10 25 [JValue.null, JValue.bool true, JValue.num 3] =
        [[JValue.null, JValue.bool true], [JValue.num 3]] := rfl
    have hmem : [JValue.null, JValue.bool true] ∈
        split_json_array cost10 25 [JValue.null, JValue.bool true, JValue.num 3] := by
      rw [hs]
      exact List.mem_cons_self _ _
    refine (C5_chunk_budget_amended.1 cost10 25 _ _ hmem).resolve_right ?_
    rintro ⟨x, hx⟩
    simpa using congrArg List.length hx
  · exact C5_chunk_budget_amended.2.2 cost10 3 [JValue.num 3, JValue.null] (JValue.num 3)
      (List.mem_cons_self _ _) (by decide)

/-- Counterexample to C5 as stated: with the constant estimator `cost10` and
budget 10, the single element (own cost 10, **not** exceeding the budget) is
returned in a chunk whose estimated cost 13 (= 10 + 3 tokens of
bracket/comma overhead) exceeds the budget — so an over-budget chunk need
not consist of an element whose own cost exceeds the budget. -/
theorem C5_chunk_budget_counterexample :
    split_json_array cost10 10 [JValue.null] = [[JValue.null]] ∧
    10 < chunkTokens cost10 [JValue.null] ∧ cost10 JValue.null ≤ 10 :=
  ⟨rfl, by decide, by decide⟩

/-! ### C6: parser totality -/

theorem matchFromEnd_head (openC closeC : Char) :
    ∀ (rev : List Char) (count : ℤ) (acc : List Char) (l : List Char),
      matchFromEnd openC closeC rev count acc = some l → l.head? = some openC := by
  intro rev
  induction rev with
  | nil => intro count acc l h; simp [matchFromEnd] at h
  | cons c rest ih =>
    intro count acc l h
    simp only [matchFromEnd] at h
    by_cases h1 : c = closeC
    · rw [if_pos h1] at h
      exact ih _ _ _ h
    · rw [if_neg h1] at h
      by_cases h2 : c = openC
      · rw [if_pos h2] at h
        by_cases h3 : count - 1 = 0
        · rw [if_pos h3] at h
          have hl := Option.some.inj h
          subst hl
          simp [h2]
        · rw [if_neg h3] at h
          exact ih _ _ _ h
      · rw [if_neg h2] at h
        exact ih _ _ _ h

theorem regexJsonSearch_head :
    ∀ (cs : List Char) (l : List Char), regexJsonSearch cs = some l →
      l.head? = some '[' ∨ l.head? = some '{' := by
  intro cs
  induction cs with
  | nil => intro l h; simp [regexJsonSearch] at h
  | cons c rest ih =>
    intro l h
    simp only [regexJsonSearch] at h
    by_cases h1 : (decide (c = '[') && rest.contains ']') = true
    · rw [if_pos h1] at h
      have hl := Option.some.inj h
      subst hl
      rw [Bool.and_eq_true, decide_eq_true_eq] at h1
      exact Or.inl (by simp [h1.1])
    · rw [if_neg h1] at h
      by_cases h2 : (decide (c = '{') && rest.contains '}') = true
      · rw [if_pos h2] at h
        have hl := Option.some.inj h
        subst hl
        rw [Bool.and_eq_true, decide_eq_true_eq] at h2
        exact Or.inr (by simp [h2.1])
      · rw [if_neg h2] at h
        exact ih l h

theorem strategy2_shape (loads : String → Option JValue) (cs : List Char) (u : JValue)
    (h : strategy2 loads cs = some u) :
    ∃ l, (l.head? = some '[' ∨ l.head? = some '{') ∧ loads (String.mk l) = some u := by
  unfold strategy2 at h
  cases hr : regexJsonSearch cs with
  | none => rw [hr] at h; cases h
  | some l =>
    rw [hr] at h
    exact ⟨l, regexJsonSearch_head cs l hr, h⟩

theorem strategy3_shape (loads : String → Option JValue) (cs : List Char) (u : JValue)
    (h : strategy3 loads cs = some u) :
    ∃ l, (l.head? = some '[' ∨ l.head? = some '{') ∧ loads (String.mk l) = some u := by
  simp only [strategy3] at h
  by_cases h1 : idxToInt (lastIdxOf '}' cs) > idxToInt (lastIdxOf ']' cs)
  · rw [if_pos h1] at h
    cases hm : matchFromEnd '{' '}' ((cs.take ((idxToInt (lastIdxOf '}' cs)).toNat + 1)).reverse) 0 [] with
    | none => rw [hm] at h; cases h
    | some l =>
      rw [hm] at h
      exact ⟨l, Or.inr (matchFromEnd_head '{' '}' _ 0 [] l hm), h⟩
  · rw [if_neg h1] at h
    by_cases h2 : idxToInt (lastIdxOf ']' cs) > idxToInt (lastIdxOf '}' cs)
    · rw [if_pos h2] at h
      cases hm : matchFromEnd '[' ']' ((cs.take ((idxToInt (lastIdxOf ']' cs)).toNat + 1)).reverse) 0 [] with
      | none => rw [hm] at h; cases h
      | some l =>
        rw [hm] at h
        exact ⟨l, Or.inl (matchFromEnd_head '[' ']' _ 0 [] l hm), h⟩
    · rw [if_neg h2] at h
      cases h

theorem strategy4_shape (loads : String → Option JValue) (cs : List Char) (u : JValue)
    (h : strategy4 loads cs = some u) : ∃ xs, u = JValue.arr xs := by
  simp only [strategy4] at h
  by_cases he : ((splitOnChar '\n' cs).filterMap (strategy4Line loads)).isEmpty
  · rw [if_pos he] at h; cases h
  · rw [if_neg he] at h
    exact ⟨_, (Option.some.inj h).symm⟩

theorem loadsWF_structured (loads : String → Option JValue) (hWF : loadsWF loads)
    (l : List Char) (u : JValue) (hhead : l.head? = some '[' ∨ l.head? = some '{')
    (hl : loads (String.mk l) = some u) : isStructured u = true := by
  have hw := hWF (String.mk l) u hl
  rcases hhead with hh | hh
  · obtain ⟨xs, rfl⟩ := hw.1 hh
    rfl
  · obtain ⟨kvs, rfl⟩ := hw.2 hh
    rfl

/-- C6 (amended): `graceful_json_parse` is a total function — every input
(`None`, empty string, non-JSON prose, truncated JSON, non-string scalars)
yields a value and no exception escapes — and the returned value is a dict
or a list in every case **except** one: when the cleaned input string itself
parses directly (strategy 1) as a non-null JSON scalar, that scalar (e.g.
the int `5` for input `"5"`) is returned unchanged, contradicting the
claim's "always a dict or a list".  Quantified over any parse oracle `loads`
satisfying the stdlib guarantee `loadsWF`. -/
theorem C6_parser_totality_amended (loads : String → Option JValue) (hWF : loadsWF loads)
    (data : JValue) (tmpl : Option PyDict) (ctx : String) :
    isStructured (graceful_json_parse loads data tmpl ctx) = true ∨
    directScalar loads data = some (graceful_json_parse loads data tmpl ctx) := by
  cases data with
  | null =>
    left
    cases tmpl with
    | none => rfl
    | some t =>
      simp only [graceful_json_parse, noneFallback]
      by_cases ht : t.isEmpty <;> simp [ht, isStructured]
  | obj kvs => left; rfl
  | arr xs => left; rfl
  | bool b => left; rfl
  | num q => left; rfl
  | str s =>
    simp only [graceful_json_parse]
    cases htp : try_parse_json_strategies loads (clean_json_string s) with
    | none => left; rfl
    | some v =>
      simp only [try_parse_json_strategies] at htp
      cases hl : loads (clean_json_string s) with
      | some w =>
        rw [hl] at htp
        cases w with
        | null => cases htp
        | arr xs => left; rw [← Option.some.inj htp]; rfl
        | obj kvs => left; rw [← Option.some.inj htp]; rfl
        | num q =>
          right
          simp only [directScalar, hl]
          rw [← Option.some.inj htp]
          rfl
        | str s' =>
          right
          simp only [directScalar, hl]
          rw [← Option.some.inj htp]
          rfl
        | bool b =>
          right
          simp only [directScalar, hl]
          rw [← Option.some.inj htp]
          rfl
      | none =>
        rw [hl] at htp
        cases h2 : strategy2 loads (clean_json_string s).data with
        | some u =>
          rw [h2] at htp
          obtain ⟨l, hhead, hload⟩ := strategy2_shape loads _ u h2
          have hstr := loadsWF_structured loads hWF l u hhead hload
          left
          cases u with
          | arr xs => rw [← Option.some.inj htp]; rfl
          | obj kvs => rw [← Option.some.inj htp]; rfl
          | null => cases hstr
          | bool b => cases hstr
          | num q => cases hstr
          | str s' => cases hstr
        | none =>
          rw [h2] at htp
          cases h3 : strategy3 loads (clean_json_string s).data with
          | some u =>
            rw [h3] at htp
            obtain ⟨l, hhead, hload⟩ := strategy3_shape loads _ u h3
            have hstr := loadsWF_structured loads hWF l u hhead hload
            left
            cases u with
            | arr xs => rw [← Option.some.inj htp]; rfl
            | obj kvs => rw [← Option.some.inj htp]; rfl
            | null => cases hstr
            | bool b => cases hstr
            | num q => cases hstr
            | str s' => cases hstr
          | none =>
            rw [h3] at htp
            cases h4 : strategy4 loads (clean_json_string s).data with
            | none => rw [h4] at htp; cases htp
            | some u =>
              rw [h4] at htp
              obtain ⟨xs, rfl⟩ := strategy4_shape loads _ u h4
              left
              rw [← Option.some.inj htp]
              rfl

/-- Witness for C6: the always-failing oracle is well-formed, and on the
non-JSON input `"hello"` with no template the parser returns the generic
fallback dict (a structured value). -/
theorem C6_parser_totality_witness :
    loadsWF failLoads ∧
    (isStructured (graceful_json_parse failLoads (JValue.str ("hello")) none ("ctx")) = true ∨
      directScalar failLoads (JValue.str ("hello")) =
        some (graceful_json_parse failLoads (JValue.str ("hello")) none ("ctx"))) := by
  have hwf : loadsWF failLoads := by
    intro s v h
    simp [failLoads] at h
  exact ⟨hwf, C6_parser_totality_amended failLoads hwf (JValue.str ("hello")) none ("ctx")⟩

/-- Counterexample to C6 as stated: the input string `"5"` is valid JSON for
the integer 5, so `graceful_json_parse` (with the stdlib behaviour of
`json.loads` on integer literals, `intLoads`) returns the bare number 5 —
not a dict and not a list. -/
theorem C6_parser_totality_counterexample :
    graceful_json_parse intLoads (JValue.str ("5")) none ("ctx") = JValue.num ((5 : ℕ) : ℚ) ∧
    isStructured (JValue.num ((5 : ℕ) : ℚ)) = false ∧ ((5 : ℕ) : ℚ) = 5 :=
  ⟨rfl, rfl, by norm_num⟩

/-! ### C7: validator totality -/

theorem pyLookup_setKey_self (d : PyDict) (k : String) (v : JValue) :
    pyLookup (setKey d k v) k = some v := by
  induction d with
  | nil => simp [setKey, pyLookup]
  | cons kv rest ih =>
    obtain ⟨k', v'⟩ := kv
    simp only [setKey]
    by_cases h : k' = k
    · rw [if_pos h]
      simp [pyLookup, h]
    · rw [if_neg h]
      simp only [pyLookup, if_neg h]
      exact ih

theorem pyLookup_setKey_ne (d : PyDict) (k f : String) (v : JValue) (hne : k ≠ f) :
    pyLookup (setKey d k v) f = pyLookup d f := by
  induction d with
  | nil => simp [setKey, pyLookup, hne]
  | cons kv rest ih =>
    obtain ⟨k', v'⟩ := kv
    simp only [setKey]
    by_cases h : k' = k
    · rw [if_pos h]
      subst h
      simp only [pyLookup, if_neg hne]
    · rw [if_neg h]
      simp only [pyLookup]
      by_cases h2 : k' = f
      · rw [if_pos h2, if_pos h2]
      · rw [if_neg h2, if_neg h2]
        exact ih

theorem fillRequired_preserve :
    ∀ (req : List String) (item : PyDict) (f : String) (v : JValue),
      pyLookup item f = some v → pyFalsy v = false →
      pyLookup (fillRequired req item) f = some v := by
  intro req
  induction req with
  | nil => intro item f v hv _; exact hv
  | cons g rest ih =>
    intro item f v hv hnf
    simp only [fillRequired]
    by_cases hg : needsFill item g
    · rw [if_pos hg]
      by_cases hgf : g = f
      · subst hgf
        simp only [needsFill, hv] at hg
        rw [hnf] at hg
        cases hg
      · exact ih _ f v (by rw [pyLookup_setKey_ne _ _ _ _ hgf]; exact hv) hnf
    · rw [if_neg hg]
      exact ih _ f v hv hnf

theorem fillRequired_fills :
    ∀ (req : List String) (item : PyDict) (f : String), f ∈ req →
      needsFill item f = true →
      pyLookup (fillRequired req item) f = some (JValue.str ("Unknown")) := by
  intro req
  induction req with
  | nil => intro _ _ h; cases h
  | cons g rest ih =>
    intro item f hf hfill
    simp only [fillRequired]
    by_cases hgf : g = f
    · subst hgf
      rw [if_pos hfill]
      exact fillRequired_preserve rest _ g (JValue.str ("Unknown"))
        (pyLookup_setKey_self item g _) rfl
    · rcases List.mem_cons.mp hf with heq | htail
      · exact absurd heq.symm hgf
      · by_cases hg : needsFill item g
        · rw [if_pos hg]
          exact ih _ f htail (by rwa [needsFill, pyLookup_setKey_ne _ _ _ _ hgf])
        · rw [if_neg hg]
          exact ih _ f htail hfill

theorem validateEntry_field (required : List String) (item : PyDict) (f : String)
    (hf : f ∈ required) :
    ∃ v, pyLookup (validateEntry required item) f = some v ∧ pyFalsy v = false := by
  by_cases hval : f = "_validated"
  · subst hval
    exact ⟨JValue.bool true, pyLookup_setKey_self _ _ _, rfl⟩
  · rw [validateEntry, pyLookup_setKey_ne _ _ _ _ (fun h => hval h.symm)]
    by_cases hfill : needsFill item f
    · exact ⟨JValue.str ("Unknown"), fillRequired_fills required item f hf hfill, rfl⟩
    · rw [needsFill] at hfill
      cases hv : pyLookup item f with
      | none => rw [hv] at hfill; exact absurd rfl hfill
      | some v =>
        rw [hv] at hfill
        have hnf : pyFalsy v = false := by
          cases hb : pyFalsy v
          · rfl
          · exact absurd hb hfill
        exact ⟨v, fillRequired_preserve required item f v hv hnf, hnf⟩

/-- C7: `extract_valid_entries` never raises (it is a total function by
construction) and every record it returns contains every required field with
a non-falsy value (the original truthy value, or the backfilled sentinel
`"Unknown"`), and carries `_validated = True`; a single dict input is
treated as a one-element list, non-dict list elements are skipped, and
non-list/non-dict input yields `[]`. -/
theorem C7_validator_totality :
    (∀ (required : List String) (data : JValue) (e : PyDict),
      e ∈ extract_valid_entries data required →
      (∀ f ∈ required, ∃ v, pyLookup e f = some v ∧ pyFalsy v = false) ∧
      pyLookup e ("_validated") = some (JValue.bool true)) ∧
    (∀ (required : List String) (kvs : PyDict),
      extract_valid_entries (JValue.obj kvs) required =
        extract_valid_entries (JValue.arr [JValue.obj kvs]) required) ∧
    (∀ (required : List String) (xs : List JValue) (v : JValue), isObjV v = false →
      extract_valid_entries (JValue.arr (v :: xs)) required =
        extract_valid_entries (JValue.arr xs) required) ∧
    (∀ (required : List String) (s : String) (q : ℚ) (b : Bool),
      extract_valid_entries (JValue.str s) required = [] ∧
      extract_valid_entries (JValue.num q) required = [] ∧
      extract_valid_entries (JValue.bool b) required = [] ∧
      extract_valid_entries JValue.null required = []) := by
  refine ⟨?_, ?_, ?_, ?_⟩
  · intro required data e he
    have hmem : ∃ kvs, e = validateEntry required kvs := by
      cases data with
      | obj kvs =>
        simp only [extract_valid_entries, extractFromList, List.filterMap] at he
        simp at he
        exact ⟨kvs, he⟩
      | arr xs =>
        simp only [extract_valid_entries, extractFromList] at he
        obtain ⟨a, _, ha⟩ := List.mem_filterMap.mp he
        cases a with
        | obj kvs => exact ⟨kvs, (Option.some.inj ha).symm⟩
        | null => cases ha
        | bool b => cases ha
        | num q => cases ha
        | str s => cases ha
        | arr ys => cases ha
      | null => cases he
      | bool b => cases he
      | num q => cases he
      | str s => cases he
    obtain ⟨kvs, rfl⟩ := hmem
    exact ⟨fun f hf => validateEntry_field required kvs f hf,
      pyLookup_setKey_self _ _ _⟩
  · intro required kvs
    rfl
  · intro required xs v hv
    cases v with
    | obj kvs => cases hv
    | null => rfl
    | bool b => rfl
    | num q => rfl
    | str s => rfl
    | arr ys => rfl
  · intro required s q b
    exact ⟨rfl, rfl, rfl, rfl⟩

/-- Witness for C7: on a payload with one under-specified mapping and one
non-mapping element, the validator returns exactly the validated record
`eC7`, which carries the `_validated` marker. -/
theorem C7_validator_totality_witness :
    extract_valid_entries dataC7 reqC7 = [eC7] ∧
    pyLookup eC7 ("_validated") = some (JValue.bool true) := by
  have hx : extract_valid_entries dataC7 reqC7 = [eC7] := rfl
  have hmem : eC7 ∈ extract_valid_entries dataC7 reqC7 := by
    rw [hx]
    exact List.mem_singleton.mpr rfl
  exact ⟨hx, (C7_validator_totality.1 reqC7 dataC7 eC7 hmem).2⟩

/-! ### C8: null/empty fallback -/

/-- C8 (amended): on a `None` input, `graceful_json_parse` returns the
fallback template **as-is** (no copy, no context tag, no error marker); with
no template (or an empty one, which Python `or` treats as falsy) it returns
the fixed `{"error": "No data", "status": "Unknown"}` mapping, also without a
context tag.  Only on an *empty-string* input does the parser run the
failing strategies and build the fallback through `create_fallback_response`,
which does tag the result with the context (`_context` key for template
fallbacks, `context` key for the generic fallback). -/
theorem C8_null_empty_fallback_amended :
    (∀ (loads : String → Option JValue) (tmpl : PyDict) (ctx : String), tmpl ≠ [] →
      graceful_json_parse loads JValue.null (some tmpl) ctx = JValue.obj tmpl) ∧
    (∀ (loads : String → Option JValue) (ctx : String),
      graceful_json_parse loads JValue.null none ctx = JValue.obj noDataFallback) ∧
    (∀ (loads : String → Option JValue) (tmpl : PyDict) (ctx : String),
      loads ("") = none → tmpl ≠ [] →
      graceful_json_parse loads (JValue.str ("")) (some tmpl) ctx =
        JValue.obj (create_fallback_response (some tmpl) (JValue.str ("")) ctx) ∧
      pyLookup (create_fallback_response (some tmpl) (JValue.str ("")) ctx) ("_context") =
        some (JValue.str ctx)) ∧
    (∀ (loads : String → Option JValue) (ctx : String), loads ("") = none →
      graceful_json_parse loads (JValue.str ("")) none ctx =
        JValue.obj (genericFallback (JValue.str ("")) ctx) ∧
      pyLookup (genericFallback (JValue.str ("")) ctx) ("context") = some (JValue.str ctx)) := by
  have htp : ∀ (loads : String → Option JValue), loads ("") = none →
      try_parse_json_strategies loads (clean_json_string ("")) = none := by
    intro loads hload
    have hc : clean_json_string ("") = ("") := rfl
    rw [hc]
    unfold try_parse_json_strategies
    rw [hload]
    rfl
  refine ⟨?_, ?_, ?_, ?_⟩
  · intro loads tmpl ctx hne
    simp only [graceful_json_parse, noneFallback]
    rw [if_neg (fun h => hne (List.isEmpty_iff.mp h))]
  · intro loads ctx
    rfl
  · intro loads tmpl ctx hload hne
    constructor
    · simp only [graceful_json_parse]
      rw [htp loads hload]
    · simp only [create_fallback_response]
      rw [if_neg (fun h => hne (List.isEmpty_iff.mp h))]
      rw [pyLookup_setKey_ne _ _ _ _ (by decide), pyLookup_setKey_self]
  · intro loads ctx hload
    constructor
    · simp only [graceful_json_parse]
      rw [htp loads hload]
      rfl
    · simp [genericFallback, pyLookup]

/-- Witness for C8: with the always-failing oracle and the one-field template
`tmplPending`, the `None` input returns the template itself, while the
empty-string input returns the template-based fallback tagged with the given
context. -/
theorem C8_null_empty_fallback_amended_witness :
    graceful_json_parse failLoads JValue.null (some tmplPending) ("Competitive Analysis") =
      JValue.obj tmplPending ∧
    graceful_json_parse failLoads (JValue.str ("")) (some tmplPending) ("Competitive Analysis") =
      JValue.obj (create_fallback_response (some tmplPending) (JValue.str (""))
        ("Competitive Analysis")) ∧
    pyLookup (create_fallback_response (some tmplPending) (JValue.str (""))
        ("Competitive Analysis")) ("_context") =
      some (JValue.str ("Competitive Analysis")) := by
  have h3 := C8_null_empty_fallback_amended.2.2.1 failLoads tmplPending
    ("Competitive Analysis") rfl (List.cons_ne_nil _ _)
  exact ⟨C8_null_empty_fallback_amended.1 failLoads tmplPending
    ("Competitive Analysis") (List.cons_ne_nil _ _), h3.1, h3.2⟩

/-- Counterexample to C8 as stated: on `None` input with a (non-empty)
fallback template, `graceful_json_parse` returns the template unchanged —
carrying no `_context`/`context` tag and no parsing-error marker, so the
returned fallback is *not* "tagged with the given context". -/
theorem C8_null_empty_fallback_counterexample :
    graceful_json_parse failLoads JValue.null (some tmplPending) ("Competitive Analysis") =
      JValue.obj tmplPending ∧
    pyLookup tmplPending ("_context") = none ∧
    pyLookup tmplPending ("context") = none ∧
    pyLookup tmplPending ("_parsing_error") = none :=
  ⟨rfl, rfl, rfl, rfl⟩

/-! ### C1: phase-sum invariant -/

theorem validate_ok_shape (d : PyDict) (t : String) (r : CompetitiveAnalysis)
    (h : validate_competitive_analysis_structure d t = Except.ok r) :
    r.total_competitors = r.phase_distribution.sum ∧
    (r.total_competitors_corrected = true ↔
      inputReportedTotal d ≠ Except.ok r.phase_distribution.sum) ∧
    0 ≤ r.crowding_score ∧ r.crowding_score ≤ 1 := by
  unfold validate_competitive_analysis_structure at h
  split at h
  · cases h
  · rename_i cs h1
    split at h
    · cases h
    · rename_i tc h2
      split at h
      · cases h
      · rename_i pd h3
        split at h
        · cases h
        · rename_i pre h4
          split at h
          · cases h
          · rename_i p1 h5
            split at h
            · cases h
            · rename_i p2 h6
              split at h
              · cases h
              · rename_i p3 h7
                split at h
                · cases h
                · rename_i ap h8
                  simp only [] at h
                  cases h
                  refine ⟨?_, ?_, ?_, ?_⟩
                  · by_cases hx : tc = PhaseDist.sum ⟨pre, p1, p2, p3, ap⟩ <;> simp [hx]
                  · unfold inputReportedTotal
                    rw [h2]
                    simp [Except.ok.injEq]
                  · by_cases hc : cs < 0 ∨ cs > 1
                    · simp [hc]
                    · rw [if_neg hc]
                      push_neg at hc
                      exact hc.1
                  · by_cases hc : cs < 0 ∨ cs > 1
                    · simp [hc]
                    · rw [if_neg hc]
                      push_neg at hc
                      exact hc.2

theorem exceptNeIffToOption (e : Except String ℤ) (s : ℤ) :
    e ≠ Except.ok s ↔ e.toOption ≠ some s := by
  cases e <;> simp [Except.toOption]

theorem combine_total_eq_sum (chunks : List JValue) (t : String) :
    resultTotal (combine_competitive_analysis_results chunks t) =
      resultDistSum (combine_competitive_analysis_results chunks t) := by
  simp only [combine_competitive_analysis_results]
  by_cases he : (validChunks chunks).isEmpty
  · rw [if_pos he]; rfl
  · rw [if_neg he]
    cases hm : dedupHashable (collectListField ("modalities") (validChunks chunks)) with
    | error e => rfl
    | ok mods =>
      cases ha : dedupHashable (collectListField ("notable_acquisitions") (validChunks chunks)) with
      | error e => rfl
      | ok acqs =>
        cases hf : dedupHashable (collectListField ("white_space_flags") (validChunks chunks)) with
        | error e => rfl
        | ok flags => rfl

/-- C1: in every scoring Aggregate actually returned, `total_competitors`
equals the sum of the five `phase_distribution` counts — for
`validate_competitive_analysis_structure` on any dict (with the
`_total_competitors_corrected` flag present exactly when the input's own
reported total, as `int()` reads it with default 0, disagreed with that
sum), and for `combine_competitive_analysis_results` on any list of chunk
results (including its zero-valid-chunks fallback). -/
theorem C1_phase_sum_invariant :
    (∀ (d : PyDict) (t : String),
      resultTotal (validate_competitive_analysis_structure d t) =
        resultDistSum (validate_competitive_analysis_structure d t)) ∧
    (∀ (d : PyDict) (t : String) (b : Bool),
      resultCorrectedFlag (validate_competitive_analysis_structure d t) = some b →
      (b = true ↔ (inputReportedTotal d).toOption ≠
        resultDistSum (validate_competitive_analysis_structure d t))) ∧
    (∀ (chunks : List JValue) (t : String),
      resultTotal (combine_competitive_analysis_results chunks t) =
        resultDistSum (combine_competitive_analysis_results chunks t)) := by
  refine ⟨?_, ?_, ?_⟩
  · intro d t
    cases hv : validate_competitive_analysis_structure d t with
    | error e => rfl
    | ok r => simp [resultTotal, resultDistSum, (validate_ok_shape d t r hv).1]
  · intro d t b hb
    cases hv : validate_competitive_analysis_structure d t with
    | error e => rw [hv] at hb; cases hb
    | ok r =>
      rw [hv] at hb
      have hb' := Option.some.inj hb
      subst hb'
      rw [(validate_ok_shape d t r hv).2.1, exceptNeIffToOption]
      simp [resultDistSum]
  · exact combine_total_eq_sum

/-- Witness for C1: on `mismatchInput` (reported total 100, phase counts
summing to 2) the validator returns total 2 = phase sum and sets the
correction flag. -/
theorem C1_phase_sum_invariant_witness :
    resultTotal (validate_competitive_analysis_structure mismatchInput ("CD47")) = some 2 ∧
    resultDistSum (validate_competitive_analysis_structure mismatchInput ("CD47")) = some 2 ∧
    resultCorrectedFlag (validate_competitive_analysis_structure mismatchInput ("CD47")) =
      some true ∧
    (inputReportedTotal mismatchInput).toOption ≠
      resultDistSum (validate_competitive_analysis_structure mismatchInput ("CD47")) := by
  have hflag : resultCorrectedFlag (validate_competitive_analysis_structure mismatchInput
      ("CD47")) = some true := rfl
  have hne := (C1_phase_sum_invariant.2.1 mismatchInput ("CD47") true hflag).mp rfl
  exact ⟨rfl, rfl, hflag, hne⟩

/-! ### C2: crowding-score recombination law -/

/-- C2: whenever at least one chunk result is valid,
`combine_competitive_analysis_results` produces a crowding score equal to
the spec's law `round(min(1.0, weighted_sum / 50), 3)` computed from the
result's own combined phase counts (weights 0.2/0.4/0.6/0.8/1.0), and a
total equal to their sum. -/
theorem C2_crowding_formula (chunks : List JValue) (t : String)
    (h : validChunks chunks ≠ []) :
    resultCrowding (combine_competitive_analysis_results chunks t) =
      specCrowding (combine_competitive_analysis_results chunks t) ∧
    resultTotal (combine_competitive_analysis_results chunks t) =
      resultDistSum (combine_competitive_analysis_results chunks t) := by
  refine ⟨?_, combine_total_eq_sum chunks t⟩
  simp only [combine_competitive_analysis_results]
  rw [if_neg (fun hh => h (List.isEmpty_iff.mp hh))]
  cases hm : dedupHashable (collectListField ("modalities") (validChunks chunks)) with
  | error e => rfl
  | ok mods =>
    cases ha : dedupHashable (collectListField ("notable_acquisitions") (validChunks chunks)) with
    | error e => rfl
    | ok acqs =>
      cases hf : dedupHashable (collectListField ("white_space_flags") (validChunks chunks)) with
      | error e => rfl
      | ok flags => rfl

theorem ratFloor_eq_floor (q : ℚ) : ratFloor q = ⌊q⌋ := by
  rw [ratFloor, Rat.floor_def, Int.fdiv_eq_ediv _ (by positivity)]

/-- Concrete evaluation of the scenario: crowding score 52/125 = 0.416. -/
theorem scenario_crowding_eval :
    resultCrowding (combine_competitive_analysis_results [scenarioChunk] ("CD47")) =
      some ((52 : ℚ) / 125) := by
  have h0 : resultCrowding (combine_competitive_analysis_results [scenarioChunk] ("CD47")) =
      some (pyRound3 (ratMin (weightedSum (combinedDist (validChunks [scenarioChunk])) / 50) 1)) :=
    rfl
  rw [h0, show combinedDist (validChunks [scenarioChunk]) = (⟨10, 14, 9, 6, 3⟩ : PhaseDist)
    from rfl]
  have hws : weightedSum (⟨10, 14, 9, 6, 3⟩ : PhaseDist) = 104 / 5 := by
    unfold weightedSum
    norm_num
  rw [hws]
  have hmin : ratMin ((104 : ℚ) / 5 / 50) 1 = 52 / 125 := by
    unfold ratMin
    rw [if_pos (by norm_num)]
    norm_num
  rw [hmin]
  simp only [pyRound3, pyRoundHalfEven, ratFloor_eq_floor]
  norm_num

/-- Witness for C2 — the claim's scenario: a single valid chunk with phase
counts 10/14/9/6/3 gives `weighted_sum = 20.8`, crowding score
`round(20.8/50, 3) = 0.416` and `total_competitors = 42`. -/
theorem C2_crowding_formula_witness :
    validChunks [scenarioChunk] ≠ [] ∧
    resultCrowding (combine_competitive_analysis_results [scenarioChunk] ("CD47")) =
      specCrowding (combine_competitive_analysis_results [scenarioChunk] ("CD47")) ∧
    resultCrowding (combine_competitive_analysis_results [scenarioChunk] ("CD47")) =
      some ((416 : ℚ) / 1000) ∧
    resultTotal (combine_competitive_analysis_results [scenarioChunk] ("CD47")) = some 42 := by
  have hlen : (validChunks [scenarioChunk]).length = 1 := rfl
  have hne : validChunks [scenarioChunk] ≠ [] := by
    intro hnil
    rw [hnil] at hlen
    cases hlen
  refine ⟨hne, (C2_crowding_formula [scenarioChunk] ("CD47") hne).1, ?_, rfl⟩
  rw [scenario_crowding_eval]
  norm_num

/-! ### C3: score bounds -/

theorem pyRoundHalfEven_cases (x : ℚ) :
    pyRoundHalfEven x = ⌊x⌋ ∨
      (pyRoundHalfEven x = ⌊x⌋ + 1 ∧ ¬(x - (⌊x⌋ : ℚ) < 1/2)) := by
  simp only [pyRoundHalfEven, ratFloor_eq_floor]
  by_cases h1 : x - (⌊x⌋ : ℚ) < 1/2
  · left; rw [if_pos h1]
  · rw [if_neg h1]
    by_cases h2 : 1/2 < x - (⌊x⌋ : ℚ)
    · right; rw [if_pos h2]; exact ⟨rfl, h1⟩
    · rw [if_neg h2]
      by_cases h3 : ⌊x⌋ % 2 = 0
      · left; rw [if_pos h3]
      · right; rw [if_neg h3]; exact ⟨rfl, h1⟩

theorem pyRoundHalfEven_le_int (x : ℚ) (m : ℤ) (h : x ≤ (m : ℚ)) :
    pyRoundHalfEven x ≤ m := by
  have hf : ⌊x⌋ ≤ m := by
    have hm := Int.floor_le_floor h
    rwa [Int.floor_intCast] at hm
  rcases pyRoundHalfEven_cases x with hc | ⟨hc, hr⟩
  · rw [hc]; exact hf
  · rw [hc]
    rcases lt_or_eq_of_le hf with hlt | heq
    · omega
    · exfalso
      apply hr
      have hxm : x - (⌊x⌋ : ℚ) ≤ 0 := by
        rw [heq]
        linarith
      linarith

theorem pyRoundHalfEven_nonneg (x : ℚ) (h : 0 ≤ x) : 0 ≤ pyRoundHalfEven x := by
  have hf : (0 : ℤ) ≤ ⌊x⌋ := Int.floor_nonneg.mpr h
  rcases pyRoundHalfEven_cases x with hc | ⟨hc, _⟩ <;> rw [hc] <;> omega

theorem pyRound3_le_one (x : ℚ) (h : x ≤ 1) : pyRound3 x ≤ 1 := by
  unfold pyRound3
  rw [div_le_one (by norm_num)]
  have := pyRoundHalfEven_le_int (x * 1000) 1000 (by push_cast; linarith)
  exact_mod_cast this

theorem pyRound3_nonneg (x : ℚ) (h : 0 ≤ x) : 0 ≤ pyRound3 x := by
  unfold pyRound3
  apply div_nonneg _ (by norm_num)
  exact_mod_cast pyRoundHalfEven_nonneg (x * 1000) (by linarith)

theorem ratMin_le_right (a b : ℚ) : ratMin a b ≤ b := by
  unfold ratMin
  split
  · assumption
  · exact le_refl b

theorem ratMin_nonneg (a b : ℚ) (ha : 0 ≤ a) (hb : 0 ≤ b) : 0 ≤ ratMin a b := by
  unfold ratMin
  split <;> assumption

theorem weightedSum_nonneg (d : PhaseDist) (h : distNonneg d) : 0 ≤ weightedSum d := by
  obtain ⟨h1, h2, h3, h4, h5⟩ := h
  have c1 : (0 : ℚ) ≤ (d.preclinical : ℚ) := by exact_mod_cast h1
  have c2 : (0 : ℚ) ≤ (d.phaseI : ℚ) := by exact_mod_cast h2
  have c3 : (0 : ℚ) ≤ (d.phaseII : ℚ) := by exact_mod_cast h3
  have c4 : (0 : ℚ) ≤ (d.phaseIII : ℚ) := by exact_mod_cast h4
  have c5 : (0 : ℚ) ≤ (d.approved : ℚ) := by exact_mod_cast h5
  unfold weightedSum
  have m1 := mul_nonneg c1 (by norm_num : (0 : ℚ) ≤ (0.2 : ℚ))
  have m2 := mul_nonneg c2 (by norm_num : (0 : ℚ) ≤ (0.4 : ℚ))
  have m3 := mul_nonneg c3 (by norm_num : (0 : ℚ) ≤ (0.6 : ℚ))
  have m4 := mul_nonneg c4 (by norm_num : (0 : ℚ) ≤ (0.8 : ℚ))
  have m5 := mul_nonneg c5 (by norm_num : (0 : ℚ) ≤ (1.0 : ℚ))
  linarith

/-- C3 (amended): every crowding score actually produced satisfies the upper
bound `≤ 1.0`; the lower bound `0.0 ≤` holds for
`combine_competitive_analysis_results` **provided** the combined phase
counts are non-negative (the code has no lower clamp, so negative
model-reported counts drive the score below 0 — see the counterexample),
and unconditionally for `validate_competitive_analysis_structure`, which
clamps an out-of-range score to 0.0. -/
theorem C3_score_bounds_amended :
    (∀ (chunks : List JValue) (t : String) (q : ℚ),
      resultCrowding (combine_competitive_analysis_results chunks t) = some q →
      q ≤ 1 ∧ (distNonneg (combinedDist (validChunks chunks)) → 0 ≤ q)) ∧
    (∀ (d : PyDict) (t : String) (q : ℚ),
      resultCrowding (validate_competitive_analysis_structure d t) = some q →
      0 ≤ q ∧ q ≤ 1) := by
  constructor
  · intro chunks t q hq
    simp only [combine_competitive_analysis_results] at hq
    by_cases he : (validChunks chunks).isEmpty
    · rw [if_pos he] at hq
      simp only [resultCrowding, create_fallback_competitive_analysis] at hq
      have hq0 := Option.some.inj hq
      subst hq0
      exact ⟨by norm_num, fun _ => le_refl 0⟩
    · rw [if_neg he] at hq
      cases hm : dedupHashable (collectListField ("modalities") (validChunks chunks)) with
      | error e => rw [hm] at hq; cases hq
      | ok mods =>
        rw [hm] at hq
        cases ha : dedupHashable (collectListField ("notable_acquisitions") (validChunks chunks)) with
        | error e => rw [ha] at hq; cases hq
        | ok acqs =>
          rw [ha] at hq
          cases hf : dedupHashable (collectListField ("white_space_flags") (validChunks chunks)) with
          | error e => rw [hf] at hq; cases hq
          | ok flags =>
            rw [hf] at hq
            simp only [resultCrowding] at hq
            have hq0 := Option.some.inj hq
            subst hq0
            constructor
            · exact pyRound3_le_one _ (ratMin_le_right _ _)
            · intro hnn
              apply pyRound3_nonneg
              apply ratMin_nonneg _ _ _ (by norm_num)
              apply div_nonneg _ (by norm_num)
              exact weightedSum_nonneg _ hnn
  · intro d t q hq
    cases hv : validate_competitive_analysis_structure d t with
    | error e => rw [hv] at hq; cases hq
    | ok r =>
      rw [hv] at hq
      simp only [resultCrowding] at hq
      have hq0 := Option.some.inj hq
      subst hq0
      exact ⟨(validate_ok_shape d t r hv).2.2.1, (validate_ok_shape d t r hv).2.2.2⟩

/-- Witness for C3: the scenario chunk's score 0.416 is within [0, 1] (its
combined counts are all non-negative), obtained from the bounds theorem. -/
theorem C3_score_bounds_amended_witness :
    resultCrowding (combine_competitive_analysis_results [scenarioChunk] ("CD47")) =
      some ((52 : ℚ) / 125) ∧
    (52 : ℚ) / 125 ≤ 1 ∧ (0 : ℚ) ≤ (52 : ℚ) / 125 := by
  have hc := scenario_crowding_eval
  have hb := C3_score_bounds_amended.1 [scenarioChunk] ("CD47") ((52 : ℚ) / 125) hc
  exact ⟨hc, hb.1, hb.2 (by decide)⟩

/-- Counterexample to C3 as stated: a chunk reporting `Preclinical: -5`
drives the combined weighted sum to −1 and the returned crowding score to
−0.02 < 0 — the code never clamps the score from below. -/
theorem C3_score_bounds_counterexample :
    resultCrowding (combine_competitive_analysis_results [negChunk] ("CD47")) =
      some (-((1 : ℚ) / 50)) ∧
    ¬((0 : ℚ) ≤ -((1 : ℚ) / 50)) := by
  constructor
  · have h0 : resultCrowding (combine_competitive_analysis_results [negChunk] ("CD47")) =
        some (pyRound3 (ratMin (weightedSum (combinedDist (validChunks [negChunk])) / 50) 1)) :=
      rfl
    rw [h0, show combinedDist (validChunks [negChunk]) = (⟨-5, 0, 0, 0, 0⟩ : PhaseDist) from rfl]
    have hws : weightedSum (⟨-5, 0, 0, 0, 0⟩ : PhaseDist) = -1 := by
      unfold weightedSum
      norm_num
    rw [hws]
    have hmin : ratMin ((-1 : ℚ) / 50) 1 = -(1 / 50) := by
      unfold ratMin
      rw [if_pos (by norm_num)]
      norm_num
    rw [hmin]
    simp only [pyRound3, pyRoundHalfEven, ratFloor_eq_floor]
    norm_num
  · norm_num

/-! ### C10: normalized-structure contract -/

theorem pyLookup_mem (d : PyDict) (k : String) (v : JValue)
    (h : pyLookup d k = some v) : (k, v) ∈ d := by
  induction d with
  | nil => cases h
  | cons kv rest ih =>
    obtain ⟨k', v'⟩ := kv
    simp only [pyLookup] at h
    by_cases hk : k' = k
    · rw [if_pos hk] at h
      subst hk
      rw [Option.some.inj h]
      exact List.mem_cons_self _ _
    · rw [if_neg hk] at h
      exact List.mem_cons_of_mem _ (ih h)

theorem pyLookup_validate_normalized (data : PyDict) (p : String)
    (h : p ∈ valid_phases) :
    pyLookup (validate_normalized_structure data) p =
      some (match pyLookup data p with
        | some v => normalizePhaseValue v
        | none => JValue.arr []) := by
  simp only [valid_phases, List.mem_cons, List.mem_singleton] at h
  rcases h with rfl | rfl | rfl | rfl | rfl | h
  · simp [validate_normalized_structure, valid_phases, pyLookup]
  · simp [validate_normalized_structure, valid_phases, pyLookup]
  · simp [validate_normalized_structure, valid_phases, pyLookup]
  · simp [validate_normalized_structure, valid_phases, pyLookup]
  · simp [validate_normalized_structure, valid_phases, pyLookup]
  · cases h

theorem filterMapNormalize_length (xs : List JValue) :
    (xs.filterMap (fun e => match e with
      | JValue.obj kvs => some (JValue.obj (normalizeEntry kvs))
      | _ => none)).length = xs.countP isObjV := by
  induction xs with
  | nil => rfl
  | cons x rest ih =>
    cases x <;> simp [List.filterMap_cons, List.countP_cons, isObjV, ih]

/-- C10: `validate_normalized_structure` returns a mapping whose key list is
exactly the five phases in order; every value is a list whose elements are
dicts with exactly the seven fixed fields plus `_validated = True` (all
other input fields dropped); a phase bound to a non-list becomes `[]`;
within a phase list, exactly the dict-shaped entries survive (non-dicts are
dropped); keys outside the five phases are discarded (first conjunct). -/
theorem C10_normalized_structure :
    (∀ (d : PyDict), (validate_normalized_structure d).map Prod.fst = valid_phases) ∧
    (∀ (d : PyDict) (p : String) (v : JValue),
      pyLookup (validate_normalized_structure d) p = some v →
      ∃ l, v = JValue.arr l ∧ ∀ e ∈ l, ∃ kv, e = JValue.obj kv ∧
        kv.map Prod.fst = normalizedKeys ∧
        pyLookup kv ("_validated") = some (JValue.bool true)) ∧
    (∀ (d : PyDict) (p : String) (v : JValue), p ∈ valid_phases →
      pyLookup d p = some v → (∀ xs, v ≠ JValue.arr xs) →
      pyLookup (validate_normalized_structure d) p = some (JValue.arr [])) ∧
    (∀ (d : PyDict) (p : String) (xs : List JValue), p ∈ valid_phases →
      pyLookup d p = some (JValue.arr xs) →
      ∃ l, pyLookup (validate_normalized_structure d) p = some (JValue.arr l) ∧
        l.length = xs.countP isObjV) := by
  have hshape : ∀ (w : JValue), ∃ l, normalizePhaseValue w = JValue.arr l ∧
      ∀ e ∈ l, ∃ kv, e = JValue.obj kv ∧ kv.map Prod.fst = normalizedKeys ∧
        pyLookup kv ("_validated") = some (JValue.bool true) := by
    intro w
    cases w with
    | arr entries =>
      refine ⟨_, rfl, ?_⟩
      intro e he
      obtain ⟨a, _, ha⟩ := List.mem_filterMap.mp he
      cases a with
      | obj kvs =>
        refine ⟨normalizeEntry kvs, (Option.some.inj ha).symm, rfl, ?_⟩
        simp [normalizeEntry, pyLookup]
      | null => cases ha
      | bool b => cases ha
      | num q => cases ha
      | str s => cases ha
      | arr ys => cases ha
    | null => exact ⟨[], rfl, by intro e he; cases he⟩
    | bool b => exact ⟨[], rfl, by intro e he; cases he⟩
    | num q => exact ⟨[], rfl, by intro e he; cases he⟩
    | str s => exact ⟨[], rfl, by intro e he; cases he⟩
    | obj kvs => exact ⟨[], rfl, by intro e he; cases he⟩
  refine ⟨?_, ?_, ?_, ?_⟩
  · intro d
    simp only [validate_normalized_structure, List.map_map]
    exact List.map_id valid_phases
  · intro d p v hv
    have hmem := pyLookup_mem _ _ _ hv
    simp only [validate_normalized_structure, List.mem_map] at hmem
    obtain ⟨p', _, hp'⟩ := hmem
    have hveq : v = (match pyLookup d p' with
        | some w => normalizePhaseValue w
        | none => JValue.arr []) := by
      have := congrArg Prod.snd hp'
      exact this.symm
    cases hw : pyLookup d p' with
    | none =>
      rw [hw] at hveq
      exact ⟨[], hveq, by intro e he; cases he⟩
    | some w =>
      rw [hw] at hveq
      subst hveq
      exact hshape w
  · intro d p v hp hv hnotarr
    rw [pyLookup_validate_normalized d p hp, hv]
    cases v with
    | arr xs => exact absurd rfl (hnotarr xs)
    | null => rfl
    | bool b => rfl
    | num q => rfl
    | str s => rfl
    | obj kvs => rfl
  · intro d p xs hp hv
    rw [pyLookup_validate_normalized d p hp, hv]
    exact ⟨_, rfl, filterMapNormalize_length xs⟩

/-- Witness for C10: on `dC10` the result's keys are exactly the five
phases, the unknown key is gone, and the non-list `Phase II` value became
`[]`. -/
theorem C10_normalized_structure_witness :
    (validate_normalized_structure dC10).map Prod.fst = valid_phases ∧
    pyLookup dC10 ("Phase II") = some (JValue.str ("oops")) ∧
    pyLookup (validate_normalized_structure dC10) ("Phase II") = some (JValue.arr []) := by
  refine ⟨C10_normalized_structure.1 dC10, rfl, ?_⟩
  exact C10_normalized_structure.2.2.1 dC10 ("Phase II") (JValue.str ("oops"))
    (by simp [valid_phases]) rfl (fun xs h => JValue.noConfusion h)

/-! ### C9: no data-loss under failure -/

theorem batchLoop_flatten (recs : ℕ → Except String String → List JValue)
    (call : ℕ → Except String String) :
    ∀ (l : List (ℕ × JValue)) (acc : List JValue),
      batchLoop recs call l acc =
        acc ++ (l.map (fun ib => recs ib.1 (call ib.1))).flatten := by
  intro l
  induction l with
  | nil => intro acc; simp [batchLoop]
  | cons ib rest ih =>
    intro acc
    obtain ⟨i, b⟩ := ib
    simp only [batchLoop]
    rw [ih]
    simp

/-- C9: the extraction stage never loses a chunk and never returns an empty
aggregate: a clinical/EUCTR batch whose external completion call raises
contributes exactly one record — a fallback tagged `_processing_error` —
never zero and never more; `process_clinical_euctr_batch` is exactly the
concatenation of its per-batch contributions; and `analyze_scrapped_data`
never returns `[]`, returning exactly one synthesized `"No Data"` fallback
record when the combined results are empty. -/
theorem C9_no_data_loss :
    (∀ (loads : String → Option JValue) (target : String) (i : ℕ) (msg : String),
      clinicalBatchRecords loads target i (Except.error msg) =
        [JValue.obj (batchFailureEntry target ("Clinical Trials") i msg)] ∧
      euctrBatchRecords loads target i (Except.error msg) =
        [JValue.obj (batchFailureEntry target ("EUCTR") i msg)] ∧
      pyLookup (batchFailureEntry target ("Clinical Trials") i msg) ("_processing_error") =
        some (JValue.bool true) ∧
      pyLookup (batchFailureEntry target ("Clinical Trials") i msg) ("_fallback_entry") =
        some (JValue.bool true)) ∧
    (∀ (callC callE : ℕ → Except String String) (loads : String → Option JValue)
      (target : String) (clinical euctr : JValue),
      process_clinical_euctr_batch callC callE loads target clinical euctr =
        ((split_data_by_tokens loads clinical 6000).enum.map (fun ib =>
          clinicalBatchRecords loads target ib.1 (callC ib.1))).flatten ++
        ((split_data_by_tokens loads euctr 6000).enum.map (fun ib =>
          euctrBatchRecords loads target ib.1 (callE ib.1))).flatten) ∧
    (∀ (callC callE callPM callPA : ℕ → Except String String)
      (loads : String → Option JValue) (target : String)
      (clinical euctr pubmed patents : JValue),
      analyze_scrapped_data callC callE callPM callPA loads target
        clinical euctr pubmed patents ≠ [] ∧
      (combine_results loads (analyzeBatchResults callC callE callPM callPA loads target
          clinical euctr pubmed patents) = [] →
        analyze_scrapped_data callC callE callPM callPA loads target
          clinical euctr pubmed patents =
          [JValue.obj (create_fallback_clinical_entry target ("No Data"))])) := by
  refine ⟨?_, ?_, ?_⟩
  · intro loads target i msg
    refine ⟨rfl, rfl, ?_, ?_⟩
    · rw [batchFailureEntry, pyLookup_setKey_ne _ _ _ _ (by decide),
        pyLookup_setKey_ne _ _ _ _ (by decide), pyLookup_setKey_self]
    · rw [batchFailureEntry, pyLookup_setKey_ne _ _ _ _ (by decide),
        pyLookup_setKey_ne _ _ _ _ (by decide), pyLookup_setKey_ne _ _ _ _ (by decide)]
      simp [create_fallback_clinical_entry, pyLookup]
  · intro callC callE loads target clinical euctr
    rw [process_clinical_euctr_batch, batchLoop_flatten, batchLoop_flatten]
    simp
  · intro callC callE callPM callPA loads target clinical euctr pubmed patents
    constructor
    · simp only [analyze_scrapped_data]
      by_cases hc : (combine_results loads (analyzeBatchResults callC callE callPM callPA
          loads target clinical euctr pubmed patents)).isEmpty
      · rw [if_pos hc]
        exact List.cons_ne_nil _ _
      · rw [if_neg hc]
        exact fun h => hc (List.isEmpty_iff.mpr h)
    · intro hemp
      simp only [analyze_scrapped_data]
      rw [if_pos (List.isEmpty_iff.mpr hemp)]

/-- Witness for C9: a clinical batch whose completion call raises
contributes exactly the one tagged fallback record, and with no input data
at all the stage returns exactly one synthesized `"No Data"` record. -/
theorem C9_no_data_loss_witness :
    clinicalBatchRecords failLoads ("CD47") 0 (Except.error ("boom")) =
      [JValue.obj (batchFailureEntry ("CD47") ("Clinical Trials") 0 ("boom"))] ∧
    pyLookup (batchFailureEntry ("CD47") ("Clinical Trials") 0 ("boom"))
      ("_processing_error") = some (JValue.bool true) ∧
    analyze_scrapped_data downCalls downCalls downCalls downCalls failLoads ("CD47")
      JValue.null JValue.null JValue.null JValue.null =
      [JValue.obj (create_fallback_clinical_entry ("CD47") ("No Data"))] := by
  refine ⟨(C9_no_data_loss.1 failLoads ("CD47") 0 ("boom")).1,
    (C9_no_data_loss.1 failLoads ("CD47") 0 ("boom")).2.2.1, ?_⟩
  exact (C9_no_data_loss.2.2 downCalls downCalls downCalls downCalls failLoads ("CD47")
    JValue.null JValue.null JValue.null JValue.null).2 rfl
